import Mathlib

/-!
Verification development for the NFC emulator command-line protocol engine
(`src/cmdline.c`): NDEF message building and reporting, SNEP/LLCP/NCI/tag
command dispatch, lexing and SAP validation.

The functions of `cmdline.c` are embedded shallowly below.  Constants and
helpers that live in headers of the same repository that are not part of the
provided sources (`ndef.h`, `base64.h`, `llcp.h`, `nfc.h`, ...) are modelled
from the specification; each such definition carries a doc comment starting
with `Modelled from the spec:`.
-/

namespace NfcEmu

/-- Character strings of the command lexer (C `char*` contents). -/
abbrev Str := List Char

/-- A wire byte, kept as a `Nat` in `[0, 256)` by construction. -/
abbrev Byte := Nat

/-! ### Protocol constants

`NDEF_FLAG_*`, `NDEF_TNF_BITS` and the SAP bound live in `ndef.h` / `llcp.h`,
which are not among the provided sources. -/

/-- Modelled from the spec: NDEF header bit Message Begin (standard NDEF). -/
def NDEF_FLAG_MB : Nat := 0x80
/-- Modelled from the spec: NDEF header bit Message End (standard NDEF). -/
def NDEF_FLAG_ME : Nat := 0x40
/-- Modelled from the spec: NDEF header bit Chunk Flag (standard NDEF). -/
def NDEF_FLAG_CF : Nat := 0x20
/-- Modelled from the spec: NDEF header bit Short Record (standard NDEF). -/
def NDEF_FLAG_SR : Nat := 0x10
/-- Modelled from the spec: NDEF header bit ID-Length-present (standard NDEF). -/
def NDEF_FLAG_IL : Nat := 0x08
/-- Modelled from the spec: mask of the TNF bits in the record's first byte. -/
def NDEF_TNF_BITS : Nat := 0x07

/-- Modelled from the spec: the caller-permitted flag bits of a record literal.
The spec states that the parse-time reserved-bits mask forces caller flags to
exclude the derived bits `MB`, `ME` and `IL`, so the permitted bits are `CF`
and `SR`. -/
def NDEF_FLAG_BITS : Nat := NDEF_FLAG_CF ||| NDEF_FLAG_SR

/-- Modelled from the spec: number of TNF enumeration values (standard NDEF
has TNF values 0 through 6). -/
def NDEF_NUMBER_OF_TNFS : Nat := 7

/-- Modelled from the spec: number of LLCP service access points (standard
LLCP address space, SAP values 0 through 63). -/
def LLCP_NUMBER_OF_SAPS : Int := 64

/-- Modelled from the spec: capacity of the fixed tag-sized build buffer. -/
def MAXIMUM_SUPPORTED_TAG_SIZE : Nat := 1024

/-- `ULONG_MAX` for the 64-bit `unsigned long` used by the lexer. -/
def ULONG_MAX : Nat := 2 ^ 64 - 1

/-- `LONG_MAX` for the 64-bit `long` used by the lexer. -/
def LONG_MAX : Int := 2 ^ 63 - 1

/-- `LONG_MIN` for the 64-bit `long` used by the lexer. -/
def LONG_MIN : Int := -(2 ^ 63)

/-- C `size_t` subtraction `a - b` (wraps modulo `2 ^ 64`), used for the
`len - off` remaining-capacity computations of `build_ndef_msg`. -/
def sub_sz (a b : Nat) : Nat := if b ≤ a then a - b else 2 ^ 64 - (b - a)

/-! ### base64url codec

`decode_base64` comes from `base64.h` / `base64.c`, which are not among the
provided sources. -/

/-- Modelled from the spec: digit value of a base64url alphabet character
(`A`-`Z`, `a`-`z`, `0`-`9`, `-`, `_`). -/
def b64Val (c : Char) : Option Nat :=
  if 'A' ≤ c ∧ c ≤ 'Z' then some (c.toNat - 65)
  else if 'a' ≤ c ∧ c ≤ 'z' then some (c.toNat - 97 + 26)
  else if '0' ≤ c ∧ c ≤ '9' then some (c.toNat - 48 + 52)
  else if c = '-' then some 62
  else if c = '_' then some 63
  else none

/-- Modelled from the spec: unpadded base64url decoding of a text field to its
byte sequence.  Full 4-character groups yield 3 bytes; a trailing group of 2
or 3 characters yields 1 or 2 bytes; a trailing single character, or any
character outside the alphabet, is a decode error. -/
def b64DecodeCore : Str → Option (List Byte)
  | [] => some []
  | [_] => none
  | [a, b] =>
    match b64Val a, b64Val b with
    | some va, some vb => some [va * 4 + vb / 16]
    | _, _ => none
  | [a, b, c] =>
    match b64Val a, b64Val b, b64Val c with
    | some va, some vb, some vc =>
      some [va * 4 + vb / 16, vb % 16 * 16 + vc / 4]
    | _, _, _ => none
  | a :: b :: c :: d :: rest =>
    match b64Val a, b64Val b, b64Val c, b64Val d with
    | some va, some vb, some vc, some vd =>
      match b64DecodeCore rest with
      | some tail =>
        some ([va * 4 + vb / 16, vb % 16 * 16 + vc / 4, vc % 4 * 64 + vd] ++ tail)
      | none => none
    | _, _, _, _ => none

/-- Modelled from the spec: `decode_base64(src, srclen, dst, cap)` — decode a
base64url text into a destination of capacity `cap`, refusing to write past
the capacity.  Returns the decoded bytes, or `none` on a malformed input or
on a destination-capacity overflow. -/
def decode_base64 (s : Str) (cap : Nat) : Option (List Byte) :=
  match b64DecodeCore s with
  | none => none
  | some bs => if bs.length ≤ cap then some bs else none

/-! ### NDEF record wire layout

`struct ndef_rec`, `ndef_create_rec` and the length accessors come from
`ndef.h`, which is not among the provided sources.  The layout is modelled
from the spec ("byte-exact binary messages" of the standard NFC data exchange
format, Builder and Reporter agreeing bit-for-bit): first byte is
`flags | tnf`, second byte is the type length, then the payload length (one
byte if `SR` is set, else four bytes big-endian), then the id length (one
byte, present iff `IL` is set), then the type, id and payload bytes. -/

/-- Byte read at index `i` of a buffer (reads beyond the end yield 0). -/
def byteAt (bytes : List Byte) (i : Nat) : Byte := bytes.getD i 0

/-- Modelled from the spec: size of the payload-length field per the `SR` bit
of the record's first byte. -/
def ndefPlenSize (flags : Nat) : Nat := if flags &&& NDEF_FLAG_SR ≠ 0 then 1 else 4

/-- Modelled from the spec: total record header size per the `SR` and `IL`
bits: flags byte, type-length byte, payload-length field, optional id-length
byte. -/
def ndefRecHdrLen (flags : Nat) : Nat :=
  2 + ndefPlenSize flags + (if flags &&& NDEF_FLAG_IL ≠ 0 then 1 else 0)

/-- Modelled from the spec: `sizeof(struct ndef_rec)` — the fixed prefix of a
record header (flags byte and type-length byte) that the Reporter requires
before interpreting a record. -/
def NDEF_REC_SIZEOF : Nat := 2

/-- Modelled from the spec: the header bytes written by `ndef_create_rec`
followed by `ndef_rec_set_type_len` / `ndef_rec_set_payload_len` /
`ndef_rec_set_id_len` (each length field truncated to its wire width). -/
def ndefHeaderBytes (flags tnf tlen plen ilen : Nat) : List Byte :=
  ((flags ||| tnf) % 256) :: (tlen % 256) ::
    ((if flags &&& NDEF_FLAG_SR ≠ 0 then [plen % 256]
      else [plen / 2 ^ 24 % 256, plen / 2 ^ 16 % 256, plen / 2 ^ 8 % 256, plen % 256]) ++
     (if flags &&& NDEF_FLAG_IL ≠ 0 then [ilen % 256] else []))

/-- Modelled from the spec: flags byte of the record at the head of `bytes`. -/
def ndef_rec_flags (bytes : List Byte) : Nat := byteAt bytes 0

/-- Modelled from the spec: `ndef_rec_type_len`. -/
def ndef_rec_type_len (bytes : List Byte) : Nat := byteAt bytes 1

/-- Modelled from the spec: `ndef_rec_payload_len` (one byte under `SR`, else
four bytes big-endian). -/
def ndef_rec_payload_len (bytes : List Byte) : Nat :=
  if ndef_rec_flags bytes &&& NDEF_FLAG_SR ≠ 0 then byteAt bytes 2
  else
    byteAt bytes 2 * 2 ^ 24 + byteAt bytes 3 * 2 ^ 16 + byteAt bytes 4 * 2 ^ 8 +
      byteAt bytes 5

/-- Modelled from the spec: `ndef_rec_id_len` (0 when `IL` is unset). -/
def ndef_rec_id_len (bytes : List Byte) : Nat :=
  if ndef_rec_flags bytes &&& NDEF_FLAG_IL ≠ 0 then
    byteAt bytes (2 + ndefPlenSize (ndef_rec_flags bytes))
  else 0

/-- Modelled from the spec: `ndef_rec_const_type` — the type bytes, located
right after the header. -/
def ndef_rec_const_type (bytes : List Byte) : List Byte :=
  (bytes.drop (ndefRecHdrLen (ndef_rec_flags bytes))).take (ndef_rec_type_len bytes)

/-- Modelled from the spec: `ndef_rec_const_id` — the id bytes, located after
the type bytes. -/
def ndef_rec_const_id (bytes : List Byte) : List Byte :=
  (bytes.drop (ndefRecHdrLen (ndef_rec_flags bytes) + ndef_rec_type_len bytes)).take
    (ndef_rec_id_len bytes)

/-- Modelled from the spec: `ndef_rec_const_payload` — the payload bytes,
located after the id bytes. -/
def ndef_rec_const_payload (bytes : List Byte) : List Byte :=
  (bytes.drop
      (ndefRecHdrLen (ndef_rec_flags bytes) + ndef_rec_type_len bytes +
        ndef_rec_id_len bytes)).take
    (ndef_rec_payload_len bytes)

/-- Modelled from the spec: `ndef_rec_len` — total wire length of the record
at the head of `bytes` (header + type + id + payload). -/
def ndef_rec_len (bytes : List Byte) : Nat :=
  ndefRecHdrLen (ndef_rec_flags bytes) + ndef_rec_type_len bytes +
    ndef_rec_id_len bytes + ndef_rec_payload_len bytes

/-! ### NDEF Builder (`build_ndef_msg`, `src/cmdline.c:49`) -/

/-- `struct nfc_ndef_record_param` (`src/cmdline.c:32`): one record literal;
`type`, `id`, `payload` are the base64url text fields. -/
structure nfc_ndef_record_param where
  flags : Nat
  tnf : Nat
  type : Str
  id : Str
  payload : Str
deriving DecidableEq

/-- The zero-initialised record of `NFC_NDEF_PARAM_RECORD_INIT`. -/
def recDefault : nfc_ndef_record_param := ⟨0, 0, [], [], []⟩

/-- The effective flags of record `i` of `n`
(`src/cmdline.c:69`-`72`): caller flags OR `MB` iff first, `ME` iff last,
`IL` iff the id text is non-empty, truncated to the `uint8_t` local. -/
def effectiveFlags (r : nfc_ndef_record_param) (i n : Nat) : Nat :=
  (r.flags ||| (if i = 0 then NDEF_FLAG_MB else 0) |||
      (if i + 1 = n then NDEF_FLAG_ME else 0) |||
      (if r.id.length ≠ 0 then NDEF_FLAG_IL else 0)) % 256

/-- One iteration of the `build_ndef_msg` loop body (`src/cmdline.c:61`-`109`)
for record `i` of `n`, writing at offset `off` into a destination of capacity
`len`: create the header, decode type, id (only under `IL`) and payload with
the remaining capacity, fail on a decode error or on `SR` with a payload
longer than 255 bytes.  Returns the bytes written for this record.  (The SR
error is reported through the logging collaborator `cb.log_err`, elided here;
failure is the `none` result.) -/
def buildRec (r : nfc_ndef_record_param) (i n off len : Nat) : Option (List Byte) :=
  let flags := effectiveFlags r i n
  let off1 := off + ndefRecHdrLen flags
  match decode_base64 r.type (sub_sz len off1) with
  | none => none
  | some dtype =>
    let off2 := off1 + dtype.length
    match (if flags &&& NDEF_FLAG_IL ≠ 0 then decode_base64 r.id (sub_sz len off2)
           else some []) with
    | none => none
    | some did =>
      let off3 := off2 + did.length
      match decode_base64 r.payload (sub_sz len off3) with
      | none => none
      | some dpayload =>
        if 255 < dpayload.length ∧ flags &&& NDEF_FLAG_SR ≠ 0 then none
        else
          some (ndefHeaderBytes flags r.tnf dtype.length dpayload.length did.length ++
            dtype ++ did ++ dpayload)

/-- The `build_ndef_msg` loop over the remaining records, with `i` the index
of the next record, `n` the total count, `off` the current write offset. -/
def build_ndef_msg_aux :
    List nfc_ndef_record_param → Nat → Nat → Nat → Nat → Option (List Byte)
  | [], _, _, _, _ => some []
  | r :: rest, i, n, off, len =>
    match buildRec r i n off len with
    | none => none
    | some chunk =>
      match build_ndef_msg_aux rest (i + 1) n (off + chunk.length) len with
      | none => none
      | some restBytes => some (chunk ++ restBytes)

/-- `build_ndef_msg` (`src/cmdline.c:49`): serialise the record list into a
destination of capacity `len`; `some msg` is the written buffer contents (the
C function returns the byte count `msg.length`), `none` is the `-1` failure. -/
def build_ndef_msg (recs : List nfc_ndef_record_param) (len : Nat) :
    Option (List Byte) :=
  build_ndef_msg_aux recs 0 recs.length 0 len

/-! ### NDEF Reporter (`nfc_recv_process_ndef_cb`, `src/cmdline.c:178`) -/

/-- One rendered entry of the NDEF report: the TNF value printed and the type,
id and payload bytes handed to the external base64url encoder for rendering
(`src/cmdline.c:198`-`213`). -/
structure NdefEntry where
  tnf : Nat
  type : List Byte
  id : List Byte
  payload : List Byte
deriving DecidableEq

/-- The record walk of `nfc_recv_process_ndef_cb` (`src/cmdline.c:192`-`222`),
fuel-indexed so that it computes structurally: while bytes remain, require at
least a record-header prefix, extract one entry, and advance by the record's
total wire length.  `remain` is the `ssize_t` running length; `none` is the
truncated-message failure.  The fuel only bounds the recursion depth: every
iteration decreases `remain` by at least the two-byte header, so
`remain.toNat + 1` steps always suffice (`reportGo_mono`, `reportLoop_eq`). -/
def reportGo : Nat → List Byte → Int → Option (List NdefEntry)
  | 0, _, remain => if remain = 0 then some [] else none
  | fuel + 1, bytes, remain =>
    if remain = 0 then some []
    else if remain < (NDEF_REC_SIZEOF : Int) then none
    else
      match reportGo fuel (bytes.drop (ndef_rec_len bytes))
          (remain - ndef_rec_len bytes) with
      | none => none
      | some es =>
        some (⟨ndef_rec_flags bytes &&& NDEF_TNF_BITS, ndef_rec_const_type bytes,
          ndef_rec_const_id bytes, ndef_rec_const_payload bytes⟩ :: es)

/-- The record walk with its sufficient fuel. -/
def reportLoop (bytes : List Byte) (remain : Int) : Option (List NdefEntry) :=
  reportGo (remain.toNat + 1) bytes remain

/-- `nfc_recv_process_ndef_cb` (`src/cmdline.c:178`): walk a binary NDEF
message of length `len` and render one entry per record, in wire order. -/
def nfc_recv_process_ndef_cb (len : Nat) (bytes : List Byte) :
    Option (List NdefEntry) :=
  reportLoop bytes (len : Int)

/-! ### Command Lexer (`src/cmdline.c:253`-`328`) -/

/-- Diagnostics written to the logging collaborator (`cb.log_err`), one tag
per distinct `KO:` message of `cmdline.c`. -/
inductive Diag where
  | no_token (field : Str)
  | invalid_value (field : Str)
  | empty_token (field : Str)
  | invalid_sap (field : Str)
  | no_ndef_rec
  | invalid_ndef_flags
  | invalid_ndef_tnf
  | invalid_chars_eol
  | no_arguments
  | no_operation
  | invalid_operation (op : Str)
  | unknown_re (i : Nat)
  | unknown_ntf_type
  | unknown_rf
  | unknown_deact_type
  | unknown_deact_reason
  | no_active_re
  | snep_put_failed
  | dsap_zero
  | ssap_zero
  | llcp_connect_failed
  | re_not_tag
  | no_active_rf
  | rf_intf_activated_failed
deriving DecidableEq

/-- C `strsep(&s, delims)` on the cursor state `s` (`none` models a `NULL`
`char*`): split off the token before the first delimiter character, advancing
the cursor past it (`none` cursor when no delimiter remains).  Returns the
token (`none` when the cursor was `NULL`) and the new cursor. -/
def strsep (delims : Str) : Option Str → Option Str × Option Str
  | none => (none, none)
  | some s =>
    match s.findIdx? (fun c => c ∈ delims) with
    | some i => (some (s.take i), some (s.drop (i + 1)))
    | none => (some s, none)

/-- `lex_token` (`src/cmdline.c:253`): one `strsep` token, with a diagnostic
when the cursor was exhausted. -/
def lex_token (field : Str) (delims : Str) (args : Option Str) :
    Option Str × Option Str × List Diag :=
  match strsep delims args with
  | (none, args') => (none, args', [Diag.no_token field])
  | (some tok, args') => (some tok, args', [])

/-- Whitespace recognised by `strtol`/`strtoul` (C `isspace`). -/
def isSpaceC (c : Char) : Bool :=
  c = ' ' ∨ c = '\t' ∨ c = '\n' ∨ c = '\r' ∨ c = '\x0b' ∨ c = '\x0c'

/-- Value of a digit character in bases up to 36 (C `strtol` digit set). -/
def digitVal (c : Char) : Option Nat :=
  if '0' ≤ c ∧ c ≤ '9' then some (c.toNat - 48)
  else if 'a' ≤ c ∧ c ≤ 'z' then some (c.toNat - 87)
  else if 'A' ≤ c ∧ c ≤ 'Z' then some (c.toNat - 55)
  else none

/-- Digit value restricted to `base`. -/
def digitValB (base : Nat) (c : Char) : Option Nat :=
  match digitVal c with
  | none => none
  | some d => if d < base then some d else none

/-- Greedy digit accumulation of `strtol`/`strtoul` (unbounded here; the
callers compare against the type bounds to model `ERANGE` clamping). -/
def natFromDigits (base : Nat) : Str → Nat → Nat
  | [], acc => acc
  | c :: cs, acc =>
    match digitValB base c with
    | none => acc
    | some d => natFromDigits base cs (acc * base + d)

/-- Sign and base-prefix scan shared by `strtol`/`strtoul` with base 0:
optional whitespace, optional sign, then `0x`/`0X` (hex, only if a hex digit
follows), leading `0` (octal) or decimal.  Returns the sign, the base, and
the digit cursor. -/
def strtoScan (s : Str) : Bool × Nat × Str :=
  let s1 := s.dropWhile isSpaceC
  let (neg, s2) :=
    match s1 with
    | '-' :: t => (true, t)
    | '+' :: t => (false, t)
    | _ => (false, s1)
  let (base, s3) :=
    match s2 with
    | '0' :: 'x' :: t => if (digitValB 16 (t.headD ' ')).isSome then (16, t) else (8, s2)
    | '0' :: 'X' :: t => if (digitValB 16 (t.headD ' ')).isSome then (16, t) else (8, s2)
    | '0' :: _ => (8, s2)
    | _ => (10, s2)
  (neg, base, s3)

/-- C `strtol(tok, NULL, 0)`: the parsed `long` and whether `errno` was set
to `ERANGE` (overflow clamps to `LONG_MAX`/`LONG_MIN`).  A token without
digits yields 0 with no error, as in C. -/
def strtol0 (s : Str) : Int × Bool :=
  let (neg, base, s3) := strtoScan s
  let v : Nat := natFromDigits base s3 0
  if neg then
    if (v : Int) > 2 ^ 63 then (LONG_MIN, true) else (-(v : Int), false)
  else
    if (v : Int) > LONG_MAX then (LONG_MAX, true) else ((v : Int), false)

/-- C `strtoul(tok, NULL, 0)`: the parsed `unsigned long` and the `ERANGE`
flag (overflow clamps to `ULONG_MAX`; a leading minus sign negates the value
in unsigned arithmetic without an error, as in C). -/
def strtoul0 (s : Str) : Nat × Bool :=
  let (neg, base, s3) := strtoScan s
  let v : Nat := natFromDigits base s3 0
  if v > ULONG_MAX then (ULONG_MAX, true)
  else if neg then ((2 ^ 64 - v) % 2 ^ 64, false)
  else (v, false)

/-- `parse_token_l` (`src/cmdline.c:268`): lex one token and numeric-parse it
as a signed long, reporting a diagnostic when `errno` is set. -/
def parse_token_l (field : Str) (delims : Str) (args : Option Str) :
    Option Int × Option Str × List Diag :=
  match lex_token field delims args with
  | (none, args', d) => (none, args', d)
  | (some tok, args', _) =>
    match strtol0 tok with
    | (_, true) => (none, args', [Diag.invalid_value field])
    | (v, false) => (some v, args', [])

/-- `parse_token_ul` (`src/cmdline.c:289`): lex one token and numeric-parse
it as an unsigned long. -/
def parse_token_ul (field : Str) (delims : Str) (args : Option Str) :
    Option Nat × Option Str × List Diag :=
  match lex_token field delims args with
  | (none, args', d) => (none, args', d)
  | (some tok, args', _) =>
    match strtoul0 tok with
    | (_, true) => (none, args', [Diag.invalid_value field])
    | (v, false) => (some v, args', [])

/-- `parse_token_s` (`src/cmdline.c:311`): lex one string token; an empty
token is rejected unless `allow_empty`. -/
def parse_token_s (field : Str) (delims : Str) (args : Option Str)
    (allow_empty : Bool) : Option Str × Option Str × List Diag :=
  match lex_token field delims args with
  | (none, args', d) => (none, args', d)
  | (some tok, args', _) =>
    if ¬allow_empty ∧ tok = [] then (none, args', [Diag.empty_token field])
    else (some tok, args', [])

/-- The SAP acceptance test of `parse_sap` (`src/cmdline.c:339`-`340`): the
parsed value is rejected when it is `-1` without auto-detection, below `-1`,
or not below `LLCP_NUMBER_OF_SAPS`. -/
def sap_ok (sap : Int) (can_autodetect : Bool) : Bool :=
  ¬((sap = -1 ∧ ¬can_autodetect = true) ∨ sap < -1 ∨ ¬(sap < LLCP_NUMBER_OF_SAPS))

/-- `parse_sap` (`src/cmdline.c:330`): parse one SAP token and validate its
range. -/
def parse_sap (field : Str) (args : Option Str) (can_autodetect : Bool) :
    Option Int × Option Str × List Diag :=
  match parse_token_l field [' '] args with
  | (none, args', d) => (none, args', d)
  | (some v, args', d) =>
    if sap_ok v can_autodetect then (some v, args', d)
    else (none, args', d ++ [Diag.invalid_sap field])

/-! ### NDEF record parsing (`src/cmdline.c:352`-`419`) -/

/-- Field-name strings of the diagnostics. -/
def fieldNdefFlags : Str := ['N', 'D', 'E', 'F', ' ', 'f', 'l', 'a', 'g', 's']
def fieldNdefTnf : Str := ['N', 'D', 'E', 'F', ' ', 'T', 'N', 'F']
def fieldNdefType : Str := ['N', 'D', 'E', 'F', ' ', 't', 'y', 'p', 'e']
def fieldNdefId : Str := ['N', 'D', 'E', 'F', ' ', 'i', 'd']
def fieldNdefPayload : Str := ['N', 'D', 'E', 'F', ' ', 'p', 'a', 'y', 'l', 'o', 'a', 'd']

/-- `parse_ndef_rec` (`src/cmdline.c:352`): consume the text before the
opening bracket, then flags (checked against the reserved-bits mask), TNF
(checked against the TNF count), type, id (may be empty) and payload (closed
by the bracket). -/
def parse_ndef_rec (args : Option Str) :
    Option nfc_ndef_record_param × Option Str × List Diag :=
  match strsep ['['] args with
  | (none, args1) => (none, args1, [Diag.no_ndef_rec])
  | (some _, args1) =>
    match parse_token_ul fieldNdefFlags [' ', ','] args1 with
    | (none, args2, d) => (none, args2, d)
    | (some flags, args2, _) =>
      if flags &&& (ULONG_MAX ^^^ NDEF_FLAG_BITS) ≠ 0 then
        (none, args2, [Diag.invalid_ndef_flags])
      else
        match parse_token_ul fieldNdefTnf [' ', ','] args2 with
        | (none, args3, d) => (none, args3, d)
        | (some tnf, args3, _) =>
          if ¬(tnf < NDEF_NUMBER_OF_TNFS) then (none, args3, [Diag.invalid_ndef_tnf])
          else
            match parse_token_s fieldNdefType [' ', ','] args3 false with
            | (none, args4, d) => (none, args4, d)
            | (some ty, args4, _) =>
              match parse_token_s fieldNdefId [' ', ','] args4 true with
              | (none, args5, d) => (none, args5, d)
              | (some idt, args5, _) =>
                match parse_token_s fieldNdefPayload [']'] args5 false with
                | (none, args6, d) => (none, args6, d)
                | (some pl, args6, _) =>
                  (some ⟨flags, tnf, ty, idt, pl⟩, args6, [])

/-- `parse_ndef_msg` (`src/cmdline.c:401`): parse up to `slots` record
literals, stopping at an exhausted or empty cursor, and fail when non-empty
text remains after the last slot. -/
def parse_ndef_msg (slots : Nat) (args : Option Str) :
    Option (List nfc_ndef_record_param × Option Str) × List Diag :=
  match slots, args with
  | 0, some s =>
    if s ≠ [] then (none, [Diag.invalid_chars_eol]) else (some ([], some s), [])
  | 0, none => (some ([], none), [])
  | _ + 1, none => (some ([], none), [])
  | _ + 1, some [] => (some ([], some []), [])
  | k + 1, some (c :: cs) =>
    match parse_ndef_rec (some (c :: cs)) with
    | (none, _, d) => (none, d)
    | (some r, args', d) =>
      match parse_ndef_msg k args' with
      | (none, d2) => (none, d ++ d2)
      | (some (rs, args''), d2) => (some (r :: rs, args''), d ++ d2)

/-- `parse_re_index` (`src/cmdline.c:421`): parse an unsigned remote-endpoint
index and require it below the endpoint-table size `nres`. -/
def fieldRemoteEndpoint : Str :=
  ['r', 'e', 'm', 'o', 't', 'e', ' ', 'e', 'n', 'd', 'p', 'o', 'i', 'n', 't']

def parse_re_index (args : Option Str) (nres : Nat) :
    Option Nat × Option Str × List Diag :=
  match parse_token_ul fieldRemoteEndpoint [' '] args with
  | (none, args', d) => (none, args', d)
  | (some i, args', _) =>
    if ¬(i < nres) then (none, args', [Diag.unknown_re i]) else (some i, args', [])

/-! ### Host collaborator and device state

The remote-endpoint catalogue, RF-interface table and the send/receive/notify
dispatch sink are owned by the host (`nfc.h`, `nfc-re.h`, `cb.h`, not among
the provided sources). -/

/-- Modelled from the spec: one remote endpoint as read/mutated by this core —
its last negotiated SAPs, its RF protocol and mode, whether it carries a tag,
and whether its negotiated link-layer state has been cleared by
`nfc_clear_re`. -/
structure nfc_re where
  last_dsap : Int
  last_ssap : Int
  rfproto : Nat
  mode : Nat
  hasTag : Bool
  llcp_cleared : Bool
deriving DecidableEq

/-- Default remote endpoint (stands for the zero-initialised table slot). -/
def reDefault : nfc_re := ⟨0, 0, 0, 0, false, false⟩

/-- Modelled from the spec: one RF interface of the host's table, carrying the
protocol and mode it is bound to. -/
structure nfc_rf where
  rfproto : Nat
  mode : Nat
deriving DecidableEq

/-- Modelled from the spec: the host device context — the remote-endpoint
catalogue `res` (the `nfc_res` array), the active endpoint and active RF
interface (pointers, modelled as indices), and the RF-interface table. -/
structure nfc_device where
  res : List nfc_re
  active_re : Option Nat
  active_rf : Option Nat
  rf : List nfc_rf
deriving DecidableEq

/-- Modelled from the spec: `nfc_clear_re` — clear the endpoint's previously
negotiated link-layer state. -/
def nfc_clear_re (re : nfc_re) : nfc_re :=
  { re with last_dsap := 0, last_ssap := 0, llcp_cleared := true }

/-- Modelled from the spec: `nfc_find_rf_by_protocol_and_mode` — the first RF
interface of the table matching the endpoint's protocol and mode, or `none`. -/
def nfc_find_rf_by_protocol_and_mode (nfc : nfc_device) (rfproto mode : Nat) :
    Option Nat :=
  nfc.rf.findIdx? (fun rf => rf.rfproto = rfproto ∧ rf.mode = mode)

/-- Observable interactions with the host collaborator: which dispatch sink
was handed which builder callback, and which endpoint-level operation was
requested with which resolved arguments. -/
inductive Event where
  | send_dta_snep_put
  | recv_dta_snep_put
  | re_send_snep_put (re : Nat) (dsap ssap : Int)
  | re_recv_snep_put (re : Nat) (dsap ssap : Int)
  | re_send_llcp_connect (re : Nat) (dsap ssap : Int)
  | tag_set_data (re : Nat) (data : Option (List Byte))
  | tag_format (re : Nat)
deriving DecidableEq

/-- Modelled from the spec: the success/failure (and byte-count) results the
external host collaborators return to this core; each field is the return
value of the corresponding external call. -/
structure Host where
  send_dta : Int
  recv_dta : Int
  re_send_snep_put : Int
  re_recv_snep_put : Int
  re_send_llcp_connect : Int
  create_rf_intf_activated_ntf : Int
  tag_set_data : Int
  tag_format : Int
deriving DecidableEq

/-- A host whose external operations all succeed (returning 0 bytes). -/
def hostOk : Host := ⟨0, 0, 0, 0, 0, 0, 0, 0⟩

/-! ### SNEP callbacks (`src/cmdline.c:113`-`251`) -/

/-- `struct nfc_snep_param` (`src/cmdline.c:113`). -/
structure nfc_snep_param where
  dsap : Int
  ssap : Int
  nrecords : Nat
  record : List nfc_ndef_record_param
deriving DecidableEq

/-- `nfc_send_snep_put_cb` (`src/cmdline.c:150`): fail without an active
remote endpoint; resolve both SAPs from the endpoint's last negotiated SAPs
when both are negative; then request the SNEP put send from the host. -/
def nfc_send_snep_put_cb (host : Host) (nfc : nfc_device)
    (param : nfc_snep_param) : Int × nfc_snep_param × List Event × List Diag :=
  match nfc.active_re with
  | none => (-1, param, [], [Diag.no_active_re])
  | some ri =>
    let re := nfc.res.getD ri reDefault
    let param :=
      if param.dsap < 0 ∧ param.ssap < 0 then
        { param with dsap := re.last_dsap, ssap := re.last_ssap }
      else param
    if host.re_send_snep_put < 0 then
      (-1, param, [Event.re_send_snep_put ri param.dsap param.ssap],
        [Diag.snep_put_failed])
    else
      (host.re_send_snep_put, param,
        [Event.re_send_snep_put ri param.dsap param.ssap], [])

/-- `nfc_recv_snep_put_cb` (`src/cmdline.c:227`): same SAP resolution, then
request the receive-and-report of the next SNEP put from the host (the NDEF
content is decoded through `nfc_recv_process_ndef_cb`). -/
def nfc_recv_snep_put_cb (host : Host) (nfc : nfc_device)
    (param : nfc_snep_param) : Int × nfc_snep_param × List Event × List Diag :=
  match nfc.active_re with
  | none => (-1, param, [], [Diag.no_active_re])
  | some ri =>
    let re := nfc.res.getD ri reDefault
    let param :=
      if param.dsap < 0 ∧ param.ssap < 0 then
        { param with dsap := re.last_dsap, ssap := re.last_ssap }
      else param
    if host.re_recv_snep_put < 0 then
      (-1, param, [Event.re_recv_snep_put ri param.dsap param.ssap],
        [Diag.snep_put_failed])
    else
      (0, param, [Event.re_recv_snep_put ri param.dsap param.ssap], [])

/-! ### LLCP connect callback (`src/cmdline.c:745`) -/

/-- `struct nfc_llcp_param` (`src/cmdline.c:734`). -/
structure nfc_llcp_param where
  dsap : Int
  ssap : Int
deriving DecidableEq

/-- `nfc_llcp_connect_cb` (`src/cmdline.c:745`): fail without an active
remote endpoint; resolve both SAPs when both are negative; reject a zero DSAP
or SSAP; then request the LLCP connect from the host. -/
def nfc_llcp_connect_cb (host : Host) (nfc : nfc_device)
    (param : nfc_llcp_param) : Int × nfc_llcp_param × List Event × List Diag :=
  match nfc.active_re with
  | none => (-1, param, [], [Diag.no_active_re])
  | some ri =>
    let re := nfc.res.getD ri reDefault
    let param :=
      if param.dsap < 0 ∧ param.ssap < 0 then
        { param with dsap := re.last_dsap, ssap := re.last_ssap }
      else param
    if param.dsap = 0 then (-1, param, [], [Diag.dsap_zero])
    else if param.ssap = 0 then (-1, param, [], [Diag.ssap_zero])
    else if host.re_send_llcp_connect < 0 then
      (-1, param, [Event.re_send_llcp_connect ri param.dsap param.ssap],
        [Diag.llcp_connect_failed])
    else
      (0, param, [Event.re_send_llcp_connect ri param.dsap param.ssap], [])

/-! ### NCI interface-activated callback (`src/cmdline.c:587`) -/

/-- `struct nfc_ntf_param` (`src/cmdline.c:555`), with the endpoint pointer
modelled as an index. -/
structure nfc_ntf_param where
  re : Option Nat
  ntype : Nat
  rf : Int
  dreason : Nat
  dtype : Nat
deriving DecidableEq

/-- `nfc_rf_intf_activated_ntf_cb` (`src/cmdline.c:587`): resolve the target
endpoint (explicit or the active one), clear its negotiated link-layer state,
then resolve the active RF interface — keeping an already-active one, else
auto-selecting by the endpoint's protocol and mode (failing when no interface
matches) or taking the explicit index — and finally request the activation
notification from the host.  Returns the result, the updated device state and
the diagnostics. -/
def nfc_rf_intf_activated_ntf_cb (host : Host) (nfc : nfc_device)
    (param : nfc_ntf_param) : Int × nfc_device × List Diag :=
  match (match param.re with
         | none => nfc.active_re
         | some i => some i) with
  | none => (-1, nfc, [Diag.no_active_re])
  | some ri =>
    let re := nfc.res.getD ri reDefault
    let nfc1 : nfc_device := { nfc with res := nfc.res.set ri (nfc_clear_re re) }
    match (if nfc1.active_rf.isSome then some nfc1
           else if param.rf = -1 then
             match nfc_find_rf_by_protocol_and_mode nfc1 re.rfproto re.mode with
             | none => none
             | some k => some { nfc1 with active_rf := some k }
           else some { nfc1 with active_rf := some param.rf.toNat }) with
    | none => (-1, nfc1, [Diag.no_active_rf])
    | some nfc2 =>
      if host.create_rf_intf_activated_ntf < 0 then
        (-1, nfc2, [Diag.rf_intf_activated_failed])
      else (host.create_rf_intf_activated_ntf, nfc2, [])

/-! ### Command dispatchers (`nfc_cmd_snep`, `nfc_cmd_tag`) -/

/-- Operation keywords. -/
def kwPut : Str := ['p', 'u', 't']
def kwSet : Str := ['s', 'e', 't']
def kwClear : Str := ['c', 'l', 'e', 'a', 'r']
def kwFormat : Str := ['f', 'o', 'r', 'm', 'a', 't']
def fieldDSAP : Str := ['D', 'S', 'A', 'P']
def fieldSSAP : Str := ['S', 'S', 'A', 'P']

/-- `nfc_cmd_snep` (`src/cmdline.c:496`): for the `put` operation, parse
DSAP, SSAP (both auto-detectable) and up to 4 record literals, then dispatch
exactly one operation to the host's dispatch sink: a send (with
`nfc_send_snep_put_cb`) when records were parsed, a receive (with
`nfc_recv_snep_put_cb`) when none were. -/
def nfc_cmd_snep (host : Host) (args : Option Str) : Int × List Event × List Diag :=
  match args with
  | none => (-1, [], [Diag.no_arguments])
  | some s =>
    match strsep [' '] (some s) with
    | (none, _) => (-1, [], [Diag.no_operation])
    | (some p, args1) =>
      if p = kwPut then
        match parse_sap fieldDSAP args1 true with
        | (none, _, d) => (-1, [], d)
        | (some _dsap, args2, d1) =>
          match parse_sap fieldSSAP args2 true with
          | (none, _, d) => (-1, [], d1 ++ d)
          | (some _ssap, args3, d2) =>
            match parse_ndef_msg 4 args3 with
            | (none, d3) => (-1, [], d1 ++ d2 ++ d3)
            | (some (recs, _), d3) =>
              if recs.length ≠ 0 then
                if host.send_dta < 0 then
                  (-1, [Event.send_dta_snep_put], d1 ++ d2 ++ d3)
                else (0, [Event.send_dta_snep_put], d1 ++ d2 ++ d3)
              else
                if host.recv_dta < 0 then
                  (-1, [Event.recv_dta_snep_put], d1 ++ d2 ++ d3)
                else (0, [Event.recv_dta_snep_put], d1 ++ d2 ++ d3)
      else (-1, [], [Diag.invalid_operation p])

/-- `nfc_cmd_tag` (`src/cmdline.c:814`): operations `set` (parse endpoint
index, require a tag, parse 1-4 records, build the message into the tag-sized
buffer, install it), `clear` (install an empty payload) and `format` (reset
the tag).  A line whose operation keyword matches none of the three falls
through to the final `return 0` with no dispatch and no diagnostic. -/
def nfc_cmd_tag (host : Host) (nfc : nfc_device) (args : Option Str) :
    Int × List Event × List Diag :=
  match args with
  | none => (-1, [], [Diag.no_arguments])
  | some s =>
    match strsep [' '] (some s) with
    | (none, _) => (-1, [], [Diag.no_operation])
    | (some p, args1) =>
      if p = kwSet then
        match parse_re_index args1 nfc.res.length with
        | (none, _, d) => (-1, [], d)
        | (some i, args2, d1) =>
          let re := nfc.res.getD i reDefault
          if ¬re.hasTag then (-1, [], d1 ++ [Diag.re_not_tag])
          else
            match parse_ndef_msg 4 args2 with
            | (none, d2) => (-1, [], d1 ++ d2)
            | (some (recs, _), d2) =>
              match build_ndef_msg recs MAXIMUM_SUPPORTED_TAG_SIZE with
              | none => (-1, [], d1 ++ d2)
              | some msg =>
                if host.tag_set_data < 0 then
                  (-1, [Event.tag_set_data i (some msg)], d1 ++ d2)
                else (0, [Event.tag_set_data i (some msg)], d1 ++ d2)
      else if p = kwClear then
        match parse_re_index args1 nfc.res.length with
        | (none, _, d) => (-1, [], d)
        | (some i, _, d1) =>
          if host.tag_set_data < 0 then (-1, [Event.tag_set_data i none], d1)
          else (0, [Event.tag_set_data i none], d1)
      else if p = kwFormat then
        match parse_re_index args1 nfc.res.length with
        | (none, _, d) => (-1, [], d)
        | (some i, _, d1) =>
          if host.tag_format < 0 then (-1, [Event.tag_format i], d1)
          else (0, [Event.tag_format i], d1)
      else (0, [], [])

/-! ## Toolkit lemmas -/

lemma land_lor_right (a b m : Nat) : (a ||| b) &&& m = (a &&& m) ||| (b &&& m) := by
  apply Nat.eq_of_testBit_eq
  intro i
  simp [Nat.testBit_land, Nat.testBit_lor, Bool.and_or_distrib_right]

lemma mod256_and_low (x m : Nat) (hm : m < 256) : x % 256 &&& m = x &&& m := by
  apply Nat.eq_of_testBit_eq
  intro i
  rw [Nat.testBit_land, Nat.testBit_land]
  rcases lt_or_ge i 8 with hi | hi
  · have hx : (x % 256).testBit i = x.testBit i := by
      have := Nat.testBit_mod_two_pow x 8 i
      simpa [hi] using this
    rw [hx]
  · have h28 : (256 : Nat) ≤ 2 ^ i := by
      calc (256 : Nat) = 2 ^ 8 := by norm_num
        _ ≤ 2 ^ i := Nat.pow_le_pow_right (by norm_num) hi
    have hm' : m.testBit i = false := Nat.testBit_lt_two_pow (lt_of_lt_of_le hm h28)
    simp [hm']

lemma strtoul0_le (s : Str) : (strtoul0 s).1 ≤ ULONG_MAX := by
  unfold strtoul0
  rcases strtoScan s with ⟨neg, base, s3⟩
  simp only []
  split
  · simp
  · split
    · have : (2 ^ 64 - natFromDigits base s3 0) % 2 ^ 64 < 2 ^ 64 :=
        Nat.mod_lt _ (by norm_num)
      unfold ULONG_MAX
      omega
    · omega

lemma flags_mask_ok {f : Nat} (hf : f ≤ ULONG_MAX)
    (h : f &&& (ULONG_MAX ^^^ NDEF_FLAG_BITS) = 0) :
    f &&& NDEF_FLAG_BITS = f := by
  apply Nat.eq_of_testBit_eq
  intro i
  rw [Nat.testBit_land]
  by_cases hb : NDEF_FLAG_BITS.testBit i = true
  · simp [hb]
  · have hfi : f.testBit i = false := by
      rcases lt_or_ge i 64 with hi | hi
      · have h' := congrArg (fun x => x.testBit i) h
        simp only [Nat.testBit_land, Nat.testBit_xor, Nat.zero_testBit] at h'
        have hu : ULONG_MAX.testBit i = true := by
          unfold ULONG_MAX
          rw [Nat.testBit_two_pow_sub_one]
          simpa using hi
        rw [hu] at h'
        simp only [Bool.eq_false_iff] at hb
        cases hfb : f.testBit i
        · rfl
        · rw [hfb] at h'
          cases hbb : NDEF_FLAG_BITS.testBit i
          · rw [hbb] at h'
            simp at h'
          · exact absurd hbb hb
      · apply Nat.testBit_lt_two_pow
        calc f ≤ ULONG_MAX := hf
          _ < 2 ^ 64 := by unfold ULONG_MAX; norm_num
          _ ≤ 2 ^ i := Nat.pow_le_pow_right (by norm_num) hi
    simp [hfi]

/-- Bit consequences of passing the parse-time reserved-bits mask. -/
lemma submask_bits {f : Nat} (h : f &&& NDEF_FLAG_BITS = f) :
    f ≤ 48 ∧ f &&& NDEF_FLAG_MB = 0 ∧ f &&& NDEF_FLAG_ME = 0 ∧
      f &&& NDEF_FLAG_IL = 0 ∧ f &&& NDEF_TNF_BITS = 0 ∧
      f &&& (NDEF_FLAG_MB ||| NDEF_FLAG_ME ||| NDEF_FLAG_IL) = 0 := by
  have hle : f ≤ 48 := by
    have : f &&& NDEF_FLAG_BITS ≤ NDEF_FLAG_BITS := Nat.and_le_right
    rw [h] at this
    simpa [NDEF_FLAG_BITS, NDEF_FLAG_CF, NDEF_FLAG_SR] using this
  refine ⟨hle, ?_⟩
  interval_cases f <;> (revert h; decide)

lemma lt8_and_128 {t : Nat} (h : t < 8) : t &&& 128 = 0 := by
  interval_cases t <;> decide

lemma lt8_and_64 {t : Nat} (h : t < 8) : t &&& 64 = 0 := by
  interval_cases t <;> decide

lemma lt8_and_8 {t : Nat} (h : t < 8) : t &&& 8 = 0 := by
  interval_cases t <;> decide

lemma lt8_and_7 {t : Nat} (h : t < 8) : t &&& 7 = t := by
  interval_cases t <;> decide

lemma strsep_some (delims : Str) (s : Str) :
    ∃ t a', strsep delims (some s) = (some t, a') := by
  unfold strsep
  rcases hfi : s.findIdx? (fun c => c ∈ delims) with _ | i <;> simp only [hfi]
  · exact ⟨s, none, rfl⟩
  · exact ⟨s.take i, some (s.drop (i + 1)), rfl⟩

lemma b64DecodeCore_nil : b64DecodeCore [] = some [] := rfl

lemma b64DecodeCore_ne_nil {s : Str} {l : List Byte} (hs : s ≠ [])
    (h : b64DecodeCore s = some l) : l ≠ [] := by
  cases s with
  | nil => exact absurd rfl hs
  | cons a t =>
    cases t with
    | nil => simp [b64DecodeCore] at h
    | cons b t2 =>
      cases t2 with
      | nil =>
        unfold b64DecodeCore at h
        split at h
        · simp only [Option.some_inj] at h
          subst h
          simp
        · exact absurd h (by simp)
      | cons c t3 =>
        cases t3 with
        | nil =>
          unfold b64DecodeCore at h
          split at h
          · simp only [Option.some_inj] at h
            subst h
            simp
          · exact absurd h (by simp)
        | cons d rest =>
          unfold b64DecodeCore at h
          split at h
          · split at h
            · simp only [Option.some_inj] at h
              subst h
              simp
            · exact absurd h (by simp)
          · exact absurd h (by simp)

lemma b64DecodeCore_nil_iff {s : Str} {l : List Byte}
    (h : b64DecodeCore s = some l) : l = [] ↔ s = [] := by
  constructor
  · intro hl
    by_contra hs
    exact b64DecodeCore_ne_nil hs h hl
  · intro hs
    subst hs
    rw [b64DecodeCore_nil] at h
    exact (Option.some_inj.mp h).symm

/-! ### Bit analysis of the effective flags -/

lemma effectiveFlags_and (r : nfc_ndef_record_param) (i n m : Nat) (hm : m < 256) :
    effectiveFlags r i n &&& m =
      (r.flags &&& m) ||| ((if i = 0 then NDEF_FLAG_MB else 0) &&& m) |||
        ((if i + 1 = n then NDEF_FLAG_ME else 0) &&& m) |||
        ((if r.id.length ≠ 0 then NDEF_FLAG_IL else 0) &&& m) := by
  unfold effectiveFlags
  rw [mod256_and_low _ _ hm, land_lor_right, land_lor_right, land_lor_right]

lemma effectiveFlags_SR (r : nfc_ndef_record_param) (i n : Nat) :
    effectiveFlags r i n &&& NDEF_FLAG_SR = r.flags &&& NDEF_FLAG_SR := by
  rw [show NDEF_FLAG_SR = 16 from rfl]
  rw [effectiveFlags_and r i n 16 (by norm_num)]
  have h1 : (if i = 0 then NDEF_FLAG_MB else 0) &&& 16 = 0 := by
    split <;> decide
  have h2 : (if i + 1 = n then NDEF_FLAG_ME else 0) &&& 16 = 0 := by
    split <;> decide
  have h3 : (if r.id.length ≠ 0 then NDEF_FLAG_IL else 0) &&& 16 = 0 := by
    split <;> decide
  rw [h1, h2, h3]
  simp

lemma effectiveFlags_MB {r : nfc_ndef_record_param} (i n : Nat)
    (h : r.flags &&& NDEF_FLAG_BITS = r.flags) :
    effectiveFlags r i n &&& NDEF_FLAG_MB = if i = 0 then NDEF_FLAG_MB else 0 := by
  rw [show NDEF_FLAG_MB = 128 from rfl]
  rw [effectiveFlags_and r i n 128 (by norm_num)]
  have h0 : r.flags &&& 128 = 0 := (submask_bits h).2.1
  have h1 : (if i = 0 then NDEF_FLAG_MB else 0) &&& 128 =
      if i = 0 then 128 else 0 := by split <;> decide
  have h2 : (if i + 1 = n then NDEF_FLAG_ME else 0) &&& 128 = 0 := by
    split <;> decide
  have h3 : (if r.id.length ≠ 0 then NDEF_FLAG_IL else 0) &&& 128 = 0 := by
    split <;> decide
  rw [h0, h1, h2, h3]
  simp

lemma effectiveFlags_ME {r : nfc_ndef_record_param} (i n : Nat)
    (h : r.flags &&& NDEF_FLAG_BITS = r.flags) :
    effectiveFlags r i n &&& NDEF_FLAG_ME = if i + 1 = n then NDEF_FLAG_ME else 0 := by
  rw [show NDEF_FLAG_ME = 64 from rfl]
  rw [effectiveFlags_and r i n 64 (by norm_num)]
  have h0 : r.flags &&& 64 = 0 := (submask_bits h).2.2.1
  have h1 : (if i = 0 then NDEF_FLAG_MB else 0) &&& 64 = 0 := by split <;> decide
  have h2 : (if i + 1 = n then NDEF_FLAG_ME else 0) &&& 64 =
      if i + 1 = n then 64 else 0 := by split <;> decide
  have h3 : (if r.id.length ≠ 0 then NDEF_FLAG_IL else 0) &&& 64 = 0 := by
    split <;> decide
  rw [h0, h1, h2, h3]
  simp

lemma effectiveFlags_IL {r : nfc_ndef_record_param} (i n : Nat)
    (h : r.flags &&& NDEF_FLAG_BITS = r.flags) :
    effectiveFlags r i n &&& NDEF_FLAG_IL =
      if r.id.length ≠ 0 then NDEF_FLAG_IL else 0 := by
  rw [show NDEF_FLAG_IL = 8 from rfl]
  rw [effectiveFlags_and r i n 8 (by norm_num)]
  have h0 : r.flags &&& 8 = 0 := (submask_bits h).2.2.2.1
  have h1 : (if i = 0 then NDEF_FLAG_MB else 0) &&& 8 = 0 := by split <;> decide
  have h2 : (if i + 1 = n then NDEF_FLAG_ME else 0) &&& 8 = 0 := by
    split <;> decide
  have h3 : (if r.id.length ≠ 0 then NDEF_FLAG_IL else 0) &&& 8 =
      if r.id.length ≠ 0 then 8 else 0 := by split <;> decide
  rw [h0, h1, h2, h3]
  simp

lemma effectiveFlags_TNF {r : nfc_ndef_record_param} (i n : Nat)
    (h : r.flags &&& NDEF_FLAG_BITS = r.flags) :
    effectiveFlags r i n &&& NDEF_TNF_BITS = 0 := by
  rw [show NDEF_TNF_BITS = 7 from rfl]
  rw [effectiveFlags_and r i n 7 (by norm_num)]
  have h0 : r.flags &&& 7 = 0 := (submask_bits h).2.2.2.2.1
  have h1 : (if i = 0 then NDEF_FLAG_MB else 0) &&& 7 = 0 := by split <;> decide
  have h2 : (if i + 1 = n then NDEF_FLAG_ME else 0) &&& 7 = 0 := by
    split <;> decide
  have h3 : (if r.id.length ≠ 0 then NDEF_FLAG_IL else 0) &&& 7 = 0 := by
    split <;> decide
  rw [h0, h1, h2, h3]
  simp

lemma effectiveFlags_lt (r : nfc_ndef_record_param) (i n : Nat) :
    effectiveFlags r i n < 256 := by
  unfold effectiveFlags
  exact Nat.mod_lt _ (by norm_num)

/-! ## Claim C1 : derived framing bits of the built message -/

lemma decode_base64_some {s : Str} {cap : Nat} {l : List Byte}
    (h : decode_base64 s cap = some l) :
    b64DecodeCore s = some l ∧ l.length ≤ cap := by
  unfold decode_base64 at h
  rcases hc : b64DecodeCore s with _ | bs
  · rw [hc] at h
    simp at h
  · rw [hc] at h
    simp only [] at h
    by_cases hlen : bs.length ≤ cap
    · rw [if_pos hlen] at h
      have : bs = l := Option.some_inj.mp h
      subst this
      exact ⟨rfl, hlen⟩
    · rw [if_neg hlen] at h
      simp at h

/-- Structure of a successfully built record chunk. -/
lemma buildRec_some {r : nfc_ndef_record_param} {i n off len : Nat}
    {chunk : List Byte} (h : buildRec r i n off len = some chunk) :
    ∃ dtype did dpayload,
      b64DecodeCore r.type = some dtype ∧
      (if effectiveFlags r i n &&& NDEF_FLAG_IL ≠ 0 then b64DecodeCore r.id = some did
       else did = []) ∧
      b64DecodeCore r.payload = some dpayload ∧
      ¬(255 < dpayload.length ∧ effectiveFlags r i n &&& NDEF_FLAG_SR ≠ 0) ∧
      chunk =
        ndefHeaderBytes (effectiveFlags r i n) r.tnf dtype.length dpayload.length
            did.length ++ dtype ++ did ++ dpayload := by
  unfold buildRec at h
  simp only [] at h
  rcases hdt : decode_base64 r.type (sub_sz len (off + ndefRecHdrLen (effectiveFlags r i n))) with _ | dtype
  · rw [hdt] at h
    simp at h
  · rw [hdt] at h
    simp only [] at h
    rcases hdi : (if effectiveFlags r i n &&& NDEF_FLAG_IL ≠ 0 then
        decode_base64 r.id
          (sub_sz len (off + ndefRecHdrLen (effectiveFlags r i n) + dtype.length))
      else some []) with _ | did
    · rw [hdi] at h
      simp at h
    · rw [hdi] at h
      simp only [] at h
      rcases hdp : decode_base64 r.payload
          (sub_sz len
            (off + ndefRecHdrLen (effectiveFlags r i n) + dtype.length + did.length)) with _ | dpayload
      · rw [hdp] at h
        simp at h
      · rw [hdp] at h
        simp only [] at h
        by_cases hsr : 255 < dpayload.length ∧ effectiveFlags r i n &&& NDEF_FLAG_SR ≠ 0
        · rw [if_pos hsr] at h
          simp at h
        · rw [if_neg hsr] at h
          refine ⟨dtype, did, dpayload, (decode_base64_some hdt).1, ?_, ?_, hsr,
            (Option.some_inj.mp h).symm⟩
          · by_cases hil : effectiveFlags r i n &&& NDEF_FLAG_IL ≠ 0
            · rw [if_pos hil]
              rw [if_pos hil] at hdi
              exact (decode_base64_some hdi).1
            · rw [if_neg hil]
              rw [if_neg hil] at hdi
              exact (Option.some_inj.mp hdi).symm
          · exact (decode_base64_some hdp).1

/-- Decomposition of a successful `build_ndef_msg_aux` run into per-record
chunks. -/
lemma build_aux_chunks {recs : List nfc_ndef_record_param} {i0 n off len : Nat}
    {msg : List Byte}
    (h : build_ndef_msg_aux recs i0 n off len = some msg) :
    ∃ chunks : List (List Byte),
      msg = chunks.flatten ∧ chunks.length = recs.length ∧
      ∀ j, j < recs.length →
        buildRec (recs.getD j recDefault) (i0 + j) n
            (off + ((chunks.take j).map List.length).sum) len =
          some (chunks.getD j []) := by
  induction recs generalizing i0 off msg with
  | nil =>
    refine ⟨[], ?_, by simp, by simp⟩
    unfold build_ndef_msg_aux at h
    simpa using (Option.some_inj.mp h).symm
  | cons r rest ih =>
    unfold build_ndef_msg_aux at h
    rcases hb : buildRec r i0 n off len with _ | chunk
    · rw [hb] at h
      simp at h
    · rw [hb] at h
      simp only [] at h
      rcases ha : build_ndef_msg_aux rest (i0 + 1) n (off + chunk.length) len with _ | restMsg
      · rw [ha] at h
        simp at h
      · rw [ha] at h
        simp only [] at h
        have hmsg : chunk ++ restMsg = msg := Option.some_inj.mp h
        obtain ⟨chunks, hjoin, hlen, hrec⟩ := ih ha
        refine ⟨chunk :: chunks, ?_, by simpa using hlen, ?_⟩
        · rw [← hmsg, hjoin]
          simp
        · intro j hj
          cases j with
          | zero => simpa using hb
          | succ j' =>
            have hstep := hrec j' (by simpa using hj)
            have harith : i0 + (j' + 1) = i0 + 1 + j' := by omega
            simp only [List.getD_cons_succ, List.take_succ_cons, List.map_cons,
              List.sum_cons, harith]
            have hoff : off + (chunk.length + ((chunks.take j').map List.length).sum) =
                off + chunk.length + ((chunks.take j').map List.length).sum := by omega
            rw [hoff]
            exact hstep

/-- Bits of the wire flags byte `(effectiveFlags ||| tnf) % 256`. -/
lemma headByte_bits {r : nfc_ndef_record_param} (i n : Nat)
    (hmask : r.flags &&& NDEF_FLAG_BITS = r.flags) (htnf : r.tnf < 8) :
    (effectiveFlags r i n ||| r.tnf) % 256 &&& NDEF_FLAG_MB =
        (if i = 0 then NDEF_FLAG_MB else 0) ∧
      (effectiveFlags r i n ||| r.tnf) % 256 &&& NDEF_FLAG_ME =
        (if i + 1 = n then NDEF_FLAG_ME else 0) ∧
      (effectiveFlags r i n ||| r.tnf) % 256 &&& NDEF_FLAG_IL =
        (if r.id.length ≠ 0 then NDEF_FLAG_IL else 0) ∧
      (effectiveFlags r i n ||| r.tnf) % 256 &&& NDEF_TNF_BITS = r.tnf ∧
      (effectiveFlags r i n ||| r.tnf) % 256 &&& NDEF_FLAG_SR =
        r.flags &&& NDEF_FLAG_SR := by
  have hf : effectiveFlags r i n < 256 := effectiveFlags_lt r i n
  have ht : r.tnf < 256 := by omega
  have hlt : effectiveFlags r i n ||| r.tnf < 256 := by
    have := Nat.or_lt_two_pow (n := 8) (by simpa using hf) (by simpa using ht)
    simpa using this
  rw [Nat.mod_eq_of_lt hlt]
  rw [land_lor_right, land_lor_right, land_lor_right, land_lor_right, land_lor_right]
  refine ⟨?_, ?_, ?_, ?_, ?_⟩
  · rw [effectiveFlags_MB i n hmask, show NDEF_FLAG_MB = 128 from rfl, lt8_and_128 htnf]
    simp
  · rw [effectiveFlags_ME i n hmask, show NDEF_FLAG_ME = 64 from rfl, lt8_and_64 htnf]
    simp
  · rw [effectiveFlags_IL i n hmask, show NDEF_FLAG_IL = 8 from rfl, lt8_and_8 htnf]
    simp
  · rw [effectiveFlags_TNF i n hmask, show NDEF_TNF_BITS = 7 from rfl, lt8_and_7 htnf]
    simp
  · rw [effectiveFlags_SR, show NDEF_FLAG_SR = 16 from rfl]
    have : r.tnf &&& 16 = 0 := by interval_cases t : r.tnf <;> decide
    rw [this]
    simp

/-- C1: for every 1-4 record list whose records carry parser-validated flags
and TNF, a successful `build_ndef_msg` produces one chunk per record whose
wire flags byte has `MB` set iff the record is first, `ME` set iff it is
last, and `IL` set iff the decoded id is non-empty — fixed formulas
independent of the caller-supplied flag bits. -/
theorem build_flag_derivation (recs : List nfc_ndef_record_param) (len : Nat)
    (msg : List Byte) (_hn1 : 1 ≤ recs.length) (_hn4 : recs.length ≤ 4)
    (hv : ∀ r ∈ recs,
        r.flags &&& NDEF_FLAG_BITS = r.flags ∧ r.tnf < NDEF_NUMBER_OF_TNFS)
    (hb : build_ndef_msg recs len = some msg) :
    ∃ chunks : List (List Byte),
      msg = chunks.flatten ∧ chunks.length = recs.length ∧
      ∀ j, j < recs.length →
        byteAt (chunks.getD j []) 0 &&& NDEF_FLAG_MB =
            (if j = 0 then NDEF_FLAG_MB else 0) ∧
          byteAt (chunks.getD j []) 0 &&& NDEF_FLAG_ME =
            (if j + 1 = recs.length then NDEF_FLAG_ME else 0) ∧
          byteAt (chunks.getD j []) 0 &&& NDEF_FLAG_IL =
            (if ((b64DecodeCore (recs.getD j recDefault).id).getD []).length ≠ 0
             then NDEF_FLAG_IL else 0) := by
  unfold build_ndef_msg at hb
  obtain ⟨chunks, hjoin, hlen, hrec⟩ := build_aux_chunks hb
  refine ⟨chunks, hjoin, hlen, ?_⟩
  intro j hj
  have hmem : recs.getD j recDefault ∈ recs := by
    rw [List.getD_eq_getElem?_getD, List.getElem?_eq_getElem hj]
    exact List.getElem_mem hj
  obtain ⟨hmask, htnf⟩ := hv _ hmem
  have htnf8 : (recs.getD j recDefault).tnf < 8 := by
    have : NDEF_NUMBER_OF_TNFS = 7 := rfl
    omega
  have hbr := hrec j hj
  simp only [Nat.zero_add] at hbr
  set r := recs.getD j recDefault with hrdef
  obtain ⟨dtype, did, dpayload, hdt, hdi, hdp, hnsr, hchunk⟩ := buildRec_some hbr
  have hhead : byteAt (chunks.getD j []) 0 =
      (effectiveFlags r j recs.length ||| r.tnf) % 256 := by
    rw [hchunk]
    simp [ndefHeaderBytes, byteAt]
  obtain ⟨hMB, hME, hIL, hTNF, hSR⟩ := headByte_bits (r := r) j recs.length hmask htnf8
  rw [hhead]
  refine ⟨hMB, hME, ?_⟩
  rw [hIL]
  by_cases hid : r.id.length ≠ 0
  · have hidne : r.id ≠ [] := by
      intro he
      rw [he] at hid
      simp at hid
    have hILbit : effectiveFlags r j recs.length &&& NDEF_FLAG_IL ≠ 0 := by
      rw [effectiveFlags_IL j recs.length hmask, if_pos hid]
      decide
    rw [if_pos hILbit] at hdi
    have hdidne := b64DecodeCore_ne_nil hidne hdi
    rw [if_pos hid, hdi]
    have : (did : List Byte).length ≠ 0 := by
      intro he
      exact hdidne (List.length_eq_zero.mp he)
    rw [if_pos (by simpa using this)]
  · have hide : r.id = [] := by
      by_contra hne
      exact hid (by simpa using List.length_pos.mpr hne |>.ne')
    rw [if_neg hid, hide, b64DecodeCore_nil]
    simp

/-- C1 witness: building the concrete two-record list (first with a non-empty
id) yields chunks whose flag bytes carry the derived bits. -/
theorem build_flag_derivation_witness :
    ∃ chunks : List (List Byte),
      (build_ndef_msg
          [⟨0, 1, ['Q', 'Q'], ['Q', 'Q'], ['R', 'E', 'V', 'G']⟩,
           ⟨16, 2, ['Q', 'Q'], [], ['Q', 'Q']⟩] 1024).getD [] = chunks.flatten ∧
      chunks.length =
        ([⟨0, 1, ['Q', 'Q'], ['Q', 'Q'], ['R', 'E', 'V', 'G']⟩,
          ⟨16, 2, ['Q', 'Q'], [], ['Q', 'Q']⟩] : List nfc_ndef_record_param).length ∧
      ∀ j, j < ([⟨0, 1, ['Q', 'Q'], ['Q', 'Q'], ['R', 'E', 'V', 'G']⟩,
          ⟨16, 2, ['Q', 'Q'], [], ['Q', 'Q']⟩] : List nfc_ndef_record_param).length →
        byteAt (chunks.getD j []) 0 &&& NDEF_FLAG_MB =
            (if j = 0 then NDEF_FLAG_MB else 0) ∧
          byteAt (chunks.getD j []) 0 &&& NDEF_FLAG_ME =
            (if j + 1 = 2 then NDEF_FLAG_ME else 0) ∧
          byteAt (chunks.getD j []) 0 &&& NDEF_FLAG_IL =
            (if ((b64DecodeCore
                    (([⟨0, 1, ['Q', 'Q'], ['Q', 'Q'], ['R', 'E', 'V', 'G']⟩,
                       ⟨16, 2, ['Q', 'Q'], [], ['Q', 'Q']⟩] :
                      List nfc_ndef_record_param).getD j recDefault).id).getD []).length ≠ 0
             then NDEF_FLAG_IL else 0) :=
  build_flag_derivation
    [⟨0, 1, ['Q', 'Q'], ['Q', 'Q'], ['R', 'E', 'V', 'G']⟩,
     ⟨16, 2, ['Q', 'Q'], [], ['Q', 'Q']⟩] 1024
    ([137, 1, 0, 0, 0, 3, 1, 65, 65, 68, 69, 70, 82, 1, 1, 65, 65])
    (by decide) (by decide) (by decide) (by decide)

/-! ## Claim C3 : build failure on SR/long-payload and decode errors -/

lemma effectiveFlags_IL_set {r : nfc_ndef_record_param} (i n : Nat)
    (hid : r.id.length ≠ 0) :
    effectiveFlags r i n &&& NDEF_FLAG_IL ≠ 0 := by
  rw [show NDEF_FLAG_IL = 8 from rfl]
  rw [effectiveFlags_and r i n 8 (by norm_num)]
  have h1 : (if i = 0 then NDEF_FLAG_MB else 0) &&& 8 = 0 := by split <;> decide
  have h2 : (if i + 1 = n then NDEF_FLAG_ME else 0) &&& 8 = 0 := by split <;> decide
  have h3 : (if r.id.length ≠ 0 then NDEF_FLAG_IL else 0) &&& 8 = 8 := by
    rw [if_pos hid]
    decide
  rw [h1, h2, h3]
  intro h0
  have h8 : (r.flags &&& 8 ||| 0 ||| 0 ||| 8).testBit 3 = true := by
    simp [Nat.testBit_lor]
    exact Or.inr (by decide)
  rw [h0] at h8
  simp at h8

lemma effectiveFlags_IL_unset {r : nfc_ndef_record_param} (i n : Nat)
    (hid : r.id.length = 0) :
    effectiveFlags r i n &&& NDEF_FLAG_IL = r.flags &&& NDEF_FLAG_IL := by
  rw [show NDEF_FLAG_IL = 8 from rfl]
  rw [effectiveFlags_and r i n 8 (by norm_num)]
  have h1 : (if i = 0 then NDEF_FLAG_MB else 0) &&& 8 = 0 := by split <;> decide
  have h2 : (if i + 1 = n then NDEF_FLAG_ME else 0) &&& 8 = 0 := by split <;> decide
  have h3 : (if r.id.length ≠ 0 then NDEF_FLAG_IL else 0) &&& 8 = 0 := by
    rw [if_neg (by simpa using hid)]
    decide
  rw [h1, h2, h3]
  simp

/-- A record whose effective flags carry `SR` and whose payload decodes to
more than 255 bytes never encodes, at any offset. -/
lemma buildRec_sr_fail {r : nfc_ndef_record_param} {i n off len : Nat}
    (hsr : effectiveFlags r i n &&& NDEF_FLAG_SR ≠ 0)
    {p : List Byte} (hp : b64DecodeCore r.payload = some p)
    (hlong : 255 < p.length) :
    buildRec r i n off len = none := by
  unfold buildRec
  simp only []
  rcases hdt : decode_base64 r.type
      (sub_sz len (off + ndefRecHdrLen (effectiveFlags r i n))) with _ | dtype
  · rfl
  · simp only []
    rcases hdi : (if effectiveFlags r i n &&& NDEF_FLAG_IL ≠ 0 then
        decode_base64 r.id
          (sub_sz len (off + ndefRecHdrLen (effectiveFlags r i n) + dtype.length))
      else some []) with _ | did
    · rfl
    · simp only []
      have hpd : decode_base64 r.payload
          (sub_sz len
            (off + ndefRecHdrLen (effectiveFlags r i n) + dtype.length + did.length)) =
          if p.length ≤
              sub_sz len
                (off + ndefRecHdrLen (effectiveFlags r i n) + dtype.length + did.length)
          then some p else none := by
        unfold decode_base64
        rw [hp]
      rw [hpd]
      by_cases hcap : p.length ≤
          sub_sz len
            (off + ndefRecHdrLen (effectiveFlags r i n) + dtype.length + did.length)
      · rw [if_pos hcap]
        simp only []
        rw [if_pos ⟨hlong, hsr⟩]
      · rw [if_neg hcap]

/-- A record with a malformed base64 field never encodes, at any offset. -/
lemma buildRec_decode_fail {r : nfc_ndef_record_param} {i n off len : Nat}
    (hbad : b64DecodeCore r.type = none ∨ b64DecodeCore r.payload = none ∨
        (r.id ≠ [] ∧ b64DecodeCore r.id = none)) :
    buildRec r i n off len = none := by
  unfold buildRec
  simp only []
  rcases hdt : decode_base64 r.type
      (sub_sz len (off + ndefRecHdrLen (effectiveFlags r i n))) with _ | dtype
  · rfl
  · simp only []
    have hdtc := (decode_base64_some hdt).1
    rcases hbad with hbad | hbad | ⟨hidne, hbad⟩
    · rw [hbad] at hdtc
      exact absurd hdtc (by simp)
    · rcases hdi : (if effectiveFlags r i n &&& NDEF_FLAG_IL ≠ 0 then
          decode_base64 r.id
            (sub_sz len (off + ndefRecHdrLen (effectiveFlags r i n) + dtype.length))
        else some []) with _ | did
      · rfl
      · simp only []
        have hpd : decode_base64 r.payload
            (sub_sz len
              (off + ndefRecHdrLen (effectiveFlags r i n) + dtype.length + did.length)) =
            none := by
          unfold decode_base64
          rw [hbad]
        rw [hpd]
    · have hil : effectiveFlags r i n &&& NDEF_FLAG_IL ≠ 0 :=
        effectiveFlags_IL_set i n (by simpa using hidne)
      have hdi : (if effectiveFlags r i n &&& NDEF_FLAG_IL ≠ 0 then
          decode_base64 r.id
            (sub_sz len (off + ndefRecHdrLen (effectiveFlags r i n) + dtype.length))
        else some []) = none := by
        rw [if_pos hil]
        unfold decode_base64
        rw [hbad]
      rw [hdi]

/-- If the `j`-th record fails to encode at every offset, the whole build
fails. -/
lemma build_aux_fail_at {recs : List nfc_ndef_record_param} {i0 n off len : Nat}
    (j : Nat) (hj : j < recs.length)
    (hfail : ∀ off', buildRec (recs.getD j recDefault) (i0 + j) n off' len = none) :
    build_ndef_msg_aux recs i0 n off len = none := by
  induction recs generalizing i0 off j with
  | nil => simp at hj
  | cons r rest ih =>
    unfold build_ndef_msg_aux
    cases j with
    | zero =>
      have h0 := hfail off
      simp only [Nat.add_zero, List.getD_cons_zero] at h0
      rw [h0]
    | succ j' =>
      rcases hb : buildRec r i0 n off len with _ | chunk
      · rfl
      · simp only []
        have hrest : build_ndef_msg_aux rest (i0 + 1) n (off + chunk.length) len =
            none := by
          apply ih j' (by simpa using hj)
          intro off'
          have h1 := hfail off'
          rw [List.getD_cons_succ] at h1
          have harith : i0 + (j' + 1) = i0 + 1 + j' := by omega
          rw [harith] at h1
          exact h1
        rw [hrest]

/-- Some base64 field of record `r` (the `i`-th of `n`) fails to decode within
the remaining destination capacity when the record is encoded at offset `off`
of a destination of capacity `len`: one of the `decode_base64` calls of the
`build_ndef_msg` loop body, at exactly the offsets that body uses, returns a
failure — be it a malformed input or a decoded result that does not fit the
remaining capacity `len - off` at its point of decode. -/
def decodeFailsAt (r : nfc_ndef_record_param) (i n off len : Nat) : Prop :=
  decode_base64 r.type
      (sub_sz len (off + ndefRecHdrLen (effectiveFlags r i n))) = none ∨
  (∃ dtype, decode_base64 r.type
        (sub_sz len (off + ndefRecHdrLen (effectiveFlags r i n))) = some dtype ∧
      effectiveFlags r i n &&& NDEF_FLAG_IL ≠ 0 ∧
      decode_base64 r.id
        (sub_sz len
          (off + ndefRecHdrLen (effectiveFlags r i n) + dtype.length)) = none) ∨
  (∃ dtype did, decode_base64 r.type
        (sub_sz len (off + ndefRecHdrLen (effectiveFlags r i n))) = some dtype ∧
      (if effectiveFlags r i n &&& NDEF_FLAG_IL ≠ 0 then
        decode_base64 r.id
          (sub_sz len
            (off + ndefRecHdrLen (effectiveFlags r i n) + dtype.length)) = some did
       else did = []) ∧
      decode_base64 r.payload
        (sub_sz len
          (off + ndefRecHdrLen (effectiveFlags r i n) + dtype.length +
            did.length)) = none)

/-- A record one of whose fields fails to decode within the remaining
capacity at its offset does not encode there. -/
lemma buildRec_capacity_fail {r : nfc_ndef_record_param} {i n off len : Nat}
    (h : decodeFailsAt r i n off len) : buildRec r i n off len = none := by
  unfold decodeFailsAt at h
  unfold buildRec
  simp only []
  rcases h with h1 | ⟨dtype, hdt, hil, hid⟩ | ⟨dtype, did, hdt, hdi, hpl⟩
  · rw [h1]
  · rw [hdt]
    simp only []
    rw [if_pos hil, hid]
  · rw [hdt]
    simp only []
    by_cases hil : effectiveFlags r i n &&& NDEF_FLAG_IL ≠ 0
    · rw [if_pos hil] at hdi
      rw [if_pos hil, hdi]
      simp only []
      rw [hpl]
    · rw [if_neg hil] at hdi
      subst hdi
      rw [if_neg hil]
      simp only []
      rw [hpl]

/-- If the first `j` records encode to a prefix and the `j`-th record fails to
encode at the offset right after that prefix, the whole build fails. -/
lemma build_aux_fail_after_prefix {recs : List nfc_ndef_record_param}
    {i0 n off len : Nat} :
    ∀ (j : Nat), j < recs.length →
    ∀ msg0, build_ndef_msg_aux (recs.take j) i0 n off len = some msg0 →
    buildRec (recs.getD j recDefault) (i0 + j) n (off + msg0.length) len = none →
    build_ndef_msg_aux recs i0 n off len = none := by
  induction recs generalizing i0 off with
  | nil =>
    intro j hj
    simp at hj
  | cons r rest ih =>
    intro j hj msg0 hpre hfail
    cases j with
    | zero =>
      have hm : msg0 = [] := by
        unfold build_ndef_msg_aux at hpre
        simpa using (Option.some_inj.mp hpre).symm
      subst hm
      simp only [List.length_nil, Nat.add_zero, List.getD_cons_zero] at hfail
      unfold build_ndef_msg_aux
      rw [hfail]
    | succ j' =>
      rw [List.take_succ_cons] at hpre
      unfold build_ndef_msg_aux at hpre
      unfold build_ndef_msg_aux
      rcases hb : buildRec r i0 n off len with _ | chunk
      · rw [hb] at hpre
      · rw [hb] at hpre
        simp only [] at hpre
        rcases hrest : build_ndef_msg_aux (rest.take j') (i0 + 1) n
            (off + chunk.length) len with _ | msgRest
        · rw [hrest] at hpre
          simp at hpre
        · rw [hrest] at hpre
          simp only [] at hpre
          have hmsg0 : chunk ++ msgRest = msg0 := Option.some_inj.mp hpre
          simp only []
          have hnone : build_ndef_msg_aux rest (i0 + 1) n (off + chunk.length)
              len = none := by
            apply ih j' (by simpa using hj) msgRest hrest
            have harith : i0 + (j' + 1) = i0 + 1 + j' := by omega
            have hlen : off + msg0.length = off + chunk.length + msgRest.length := by
              rw [← hmsg0]
              simp [List.length_append]
              omega
            rw [List.getD_cons_succ, harith, hlen] at hfail
            exact hfail
          rw [hnone]

/-- C3: `build_ndef_msg` fails whenever some record's effective flags carry
`SR` while its payload decodes to more than 255 bytes; whenever some record's
base64 type, payload, or (non-empty) id field is malformed; a successful
build certifies that every field of every record decoded; and, after any
successfully encoded prefix, it fails whenever some base64 field of the next
record fails to decode within the remaining destination capacity at its
actual offset. -/
theorem build_ndef_msg_failure_conditions :
    (∀ recs len j, j < recs.length →
        effectiveFlags (recs.getD j recDefault) j recs.length &&& NDEF_FLAG_SR ≠ 0 →
        ∀ p, b64DecodeCore (recs.getD j recDefault).payload = some p →
          255 < p.length → build_ndef_msg recs len = none) ∧
    (∀ recs len j, j < recs.length →
        (b64DecodeCore (recs.getD j recDefault).type = none ∨
          b64DecodeCore (recs.getD j recDefault).payload = none ∨
          ((recs.getD j recDefault).id ≠ [] ∧
            b64DecodeCore (recs.getD j recDefault).id = none)) →
        build_ndef_msg recs len = none) ∧
    (∀ recs len msg, build_ndef_msg recs len = some msg →
        ∀ j, j < recs.length →
          (b64DecodeCore (recs.getD j recDefault).type).isSome ∧
          (b64DecodeCore (recs.getD j recDefault).id).isSome ∧
          (b64DecodeCore (recs.getD j recDefault).payload).isSome) ∧
    (∀ recs (len j : Nat), j < recs.length →
        ∀ msg0, build_ndef_msg_aux (recs.take j) 0 recs.length 0 len = some msg0 →
        decodeFailsAt (recs.getD j recDefault) j recs.length msg0.length len →
        build_ndef_msg recs len = none) := by
  refine ⟨?_, ?_, ?_, ?_⟩
  · intro recs len j hj hsr p hp hlong
    unfold build_ndef_msg
    apply build_aux_fail_at j hj
    intro off'
    rw [Nat.zero_add]
    exact buildRec_sr_fail hsr hp hlong
  · intro recs len j hj hbad
    unfold build_ndef_msg
    apply build_aux_fail_at j hj
    intro off'
    rw [Nat.zero_add]
    exact buildRec_decode_fail hbad
  · intro recs len msg hmsg j hj
    unfold build_ndef_msg at hmsg
    obtain ⟨chunks, -, -, hrec⟩ := build_aux_chunks hmsg
    have hbr := hrec j hj
    obtain ⟨dtype, did, dpayload, hdt, hdi, hdp, -, -⟩ := buildRec_some hbr
    refine ⟨by rw [hdt]; rfl, ?_, by rw [hdp]; rfl⟩
    by_cases hil : effectiveFlags (recs.getD j recDefault) (0 + j) recs.length &&&
        NDEF_FLAG_IL ≠ 0
    · rw [if_pos hil] at hdi
      rw [hdi]
      rfl
    · have hid0 : (recs.getD j recDefault).id.length = 0 := by
        by_contra hne
        exact hil (effectiveFlags_IL_set (0 + j) recs.length hne)
      have : (recs.getD j recDefault).id = [] := List.length_eq_zero.mp hid0
      rw [this, b64DecodeCore_nil]
      rfl
  · intro recs len j hj msg0 hpre hdf
    unfold build_ndef_msg
    have hfail : buildRec (recs.getD j recDefault) (0 + j) recs.length
        (0 + msg0.length) len = none := by
      rw [Nat.zero_add, Nat.zero_add]
      exact buildRec_capacity_fail hdf
    exact build_aux_fail_after_prefix j hj msg0 hpre hfail

set_option maxRecDepth 100000 in
/-- C3 witness: a record with `SR` in its flags and a payload decoding to 256
bytes fails to build, and a record whose well-formed type decodes to 3 bytes
with only 1 byte of destination capacity remaining after the header fails to
build. -/
theorem build_ndef_msg_failure_conditions_witness :
    build_ndef_msg
        [⟨16, 1, ['Q', 'Q'], [], List.replicate 340 'A' ++ ['Q', 'Q']⟩] 4096 =
      none ∧
    build_ndef_msg [⟨0, 1, ['Q', 'Q', 'Q', 'Q'], [], ['Q', 'Q']⟩] 7 = none :=
  ⟨build_ndef_msg_failure_conditions.1
    [⟨16, 1, ['Q', 'Q'], [], List.replicate 340 'A' ++ ['Q', 'Q']⟩] 4096 0
    (by decide) (by decide) (List.replicate 255 0 ++ [65])
    (by decide) (by decide),
   build_ndef_msg_failure_conditions.2.2.2
    [⟨0, 1, ['Q', 'Q', 'Q', 'Q'], [], ['Q', 'Q']⟩] 7 0
    (by decide) [] (by decide) (Or.inl (by decide))⟩

/-! ## Claim C2 : Builder/Reporter round trip -/

lemma lt8_and_16 {t : Nat} (h : t < 8) : t &&& 16 = 0 := by
  interval_cases t <;> decide

lemma ndefHeaderBytes_length (flags tnf tlen plen ilen : Nat) :
    (ndefHeaderBytes flags tnf tlen plen ilen).length = ndefRecHdrLen flags := by
  unfold ndefHeaderBytes ndefRecHdrLen ndefPlenSize
  by_cases hSR : flags &&& NDEF_FLAG_SR ≠ 0 <;>
    by_cases hIL : flags &&& NDEF_FLAG_IL ≠ 0 <;>
      simp [hSR, hIL]

lemma be4_roundtrip {pl : Nat} (h : pl < 2 ^ 32) :
    pl / 2 ^ 24 % 256 * 2 ^ 24 + pl / 2 ^ 16 % 256 * 2 ^ 16 +
      pl / 2 ^ 8 % 256 * 2 ^ 8 + pl % 256 = pl := by
  omega

lemma ndef_rec_len_ge (bytes : List Byte) : 2 ≤ ndef_rec_len bytes := by
  unfold ndef_rec_len ndefRecHdrLen
  omega

/-- Any fuel above `remain.toNat` computes the same walk. -/
lemma reportGo_mono (fuel1 : Nat) :
    ∀ (fuel2 : Nat) (bytes : List Byte) (remain : Int),
      remain.toNat < fuel1 → remain.toNat < fuel2 →
      reportGo fuel1 bytes remain = reportGo fuel2 bytes remain := by
  induction fuel1 with
  | zero =>
    intro fuel2 bytes remain h1 _
    exact absurd h1 (Nat.not_lt_zero _)
  | succ f1 ih =>
    intro fuel2 bytes remain h1 h2
    cases fuel2 with
    | zero => exact absurd h2 (Nat.not_lt_zero _)
    | succ f2 =>
      unfold reportGo
      by_cases h0 : remain = 0
      · simp [h0]
      · rw [if_neg h0, if_neg h0]
        by_cases hlt : remain < (NDEF_REC_SIZEOF : Int)
        · rw [if_pos hlt, if_pos hlt]
        · rw [if_neg hlt, if_neg hlt]
          have hge : 2 ≤ remain := by
            unfold NDEF_REC_SIZEOF at hlt
            push_cast at hlt
            omega
          have hrl := ndef_rec_len_ge bytes
          rw [ih f2 (bytes.drop (ndef_rec_len bytes)) (remain - ndef_rec_len bytes)
            (by omega) (by omega)]

/-- The one-step unfolding of the record walk. -/
lemma reportLoop_eq (bytes : List Byte) (remain : Int) :
    reportLoop bytes remain =
      if remain = 0 then some []
      else if remain < (NDEF_REC_SIZEOF : Int) then none
      else
        match reportLoop (bytes.drop (ndef_rec_len bytes))
            (remain - ndef_rec_len bytes) with
        | none => none
        | some es =>
          some (⟨ndef_rec_flags bytes &&& NDEF_TNF_BITS, ndef_rec_const_type bytes,
            ndef_rec_const_id bytes, ndef_rec_const_payload bytes⟩ :: es) := by
  unfold reportLoop
  rw [reportGo]
  by_cases h0 : remain = 0
  · simp [h0]
  · rw [if_neg h0, if_neg h0]
    by_cases hlt : remain < (NDEF_REC_SIZEOF : Int)
    · rw [if_pos hlt, if_pos hlt]
    · rw [if_neg hlt, if_neg hlt]
      have hge : 2 ≤ remain := by
        unfold NDEF_REC_SIZEOF at hlt
        push_cast at hlt
        omega
      have hrl := ndef_rec_len_ge bytes
      rw [reportGo_mono remain.toNat ((remain - ndef_rec_len bytes).toNat + 1)
        (bytes.drop (ndef_rec_len bytes)) (remain - ndef_rec_len bytes)
        (by omega) (by omega)]

lemma reportLoop_zero (bytes : List Byte) : reportLoop bytes 0 = some [] := by
  unfold reportLoop reportGo
  simp

/-- One Reporter step over one well-formed record whose length fields fit
their wire widths: the step renders exactly the record's fields and recurses
on the remaining bytes. -/
lemma reportLoop_cons (f t tl pl il : Nat) (ty idb pb rest : List Byte)
    (r' : Nat) (es : List NdefEntry)
    (hf : f < 256) (hf7 : f &&& NDEF_TNF_BITS = 0) (ht : t < 8)
    (htl : ty.length = tl) (htl255 : tl ≤ 255)
    (hil : idb.length = il) (hil255 : il ≤ 255)
    (hpl : pb.length = pl)
    (hplsr : f &&& NDEF_FLAG_SR ≠ 0 → pl ≤ 255)
    (hplnsr : f &&& NDEF_FLAG_SR = 0 → pl < 2 ^ 32)
    (hilflag : f &&& NDEF_FLAG_IL = 0 → idb = [])
    (hrest : reportLoop rest (r' : Int) = some es) :
    reportLoop (ndefHeaderBytes f t tl pl il ++ (ty ++ (idb ++ (pb ++ rest))))
        ((ndefRecHdrLen f + tl + il + pl + r' : Nat) : Int) =
      some (⟨t, ty, idb, pb⟩ :: es) := by
  have hb0lt : f ||| t < 256 := by
    have h8 : f < 2 ^ 8 := by simpa using hf
    have ht8 : t < 2 ^ 8 := by omega
    simpa using Nat.or_lt_two_pow h8 ht8
  set msgAll := ndefHeaderBytes f t tl pl il ++ (ty ++ (idb ++ (pb ++ rest)))
    with hmsg
  have hflags : ndef_rec_flags msgAll = f ||| t := by
    rw [hmsg]
    unfold ndefHeaderBytes ndef_rec_flags byteAt
    simp [Nat.mod_eq_of_lt hb0lt]
  have hSReq : ndef_rec_flags msgAll &&& NDEF_FLAG_SR = f &&& NDEF_FLAG_SR := by
    rw [hflags, show NDEF_FLAG_SR = 16 from rfl, land_lor_right, lt8_and_16 ht]
    simp
  have hILeq : ndef_rec_flags msgAll &&& NDEF_FLAG_IL = f &&& NDEF_FLAG_IL := by
    rw [hflags, show NDEF_FLAG_IL = 8 from rfl, land_lor_right, lt8_and_8 ht]
    simp
  have hTNFeq : ndef_rec_flags msgAll &&& NDEF_TNF_BITS = t := by
    rw [hflags, show NDEF_TNF_BITS = 7 from rfl, land_lor_right, lt8_and_7 ht]
    rw [show NDEF_TNF_BITS = 7 from rfl] at hf7
    rw [hf7]
    simp
  have hhdr : ndefRecHdrLen (ndef_rec_flags msgAll) = ndefRecHdrLen f := by
    unfold ndefRecHdrLen ndefPlenSize
    rw [hSReq, hILeq]
  have htlen : ndef_rec_type_len msgAll = tl := by
    rw [hmsg]
    unfold ndefHeaderBytes ndef_rec_type_len byteAt
    simp [Nat.mod_eq_of_lt (show tl < 256 by omega)]
  have hplen : ndef_rec_payload_len msgAll = pl := by
    unfold ndef_rec_payload_len
    rw [hSReq]
    by_cases hSR : f &&& NDEF_FLAG_SR ≠ 0
    · rw [if_pos hSR]
      have hpl255 := hplsr hSR
      rw [hmsg]
      unfold ndefHeaderBytes byteAt
      rw [if_pos hSR]
      simp [Nat.mod_eq_of_lt (show pl < 256 by omega)]
    · rw [if_neg hSR]
      have hpl32 := hplnsr (not_ne_iff.mp hSR)
      rw [hmsg]
      unfold ndefHeaderBytes byteAt
      rw [if_neg hSR]
      simp only [List.cons_append, List.append_assoc, List.getD_cons_succ,
        List.getD_cons_zero]
      exact be4_roundtrip hpl32
  have hilen : ndef_rec_id_len msgAll = il := by
    unfold ndef_rec_id_len ndefPlenSize
    rw [hSReq, hILeq]
    by_cases hIL : f &&& NDEF_FLAG_IL ≠ 0
    · rw [if_pos hIL]
      by_cases hSR : f &&& NDEF_FLAG_SR ≠ 0
      · rw [if_pos hSR]
        rw [hmsg]
        unfold ndefHeaderBytes byteAt
        rw [if_pos hSR, if_pos hIL]
        simp [Nat.mod_eq_of_lt (show il < 256 by omega)]
      · rw [if_neg hSR]
        rw [hmsg]
        unfold ndefHeaderBytes byteAt
        rw [if_neg hSR, if_pos hIL]
        simp [Nat.mod_eq_of_lt (show il < 256 by omega)]
    · rw [if_neg hIL]
      have : idb = [] := hilflag (not_ne_iff.mp hIL)
      rw [this] at hil
      simp at hil
      omega
  have hdrtail : msgAll.drop (ndefRecHdrLen f) = ty ++ (idb ++ (pb ++ rest)) := by
    rw [hmsg, ← ndefHeaderBytes_length f t tl pl il, List.drop_left]
  have htyR : ndef_rec_const_type msgAll = ty := by
    unfold ndef_rec_const_type
    rw [hhdr, htlen, hdrtail, ← htl, List.take_left]
  have hidtail : msgAll.drop (ndefRecHdrLen f + tl) = idb ++ (pb ++ rest) := by
    rw [← List.drop_drop, hdrtail, ← htl, List.drop_left]
  have hidR : ndef_rec_const_id msgAll = idb := by
    unfold ndef_rec_const_id
    rw [hhdr, htlen, hilen, hidtail, ← hil, List.take_left]
  have hpbtail : msgAll.drop (ndefRecHdrLen f + tl + il) = pb ++ rest := by
    rw [← List.drop_drop, hidtail, ← hil, List.drop_left]
  have hpbR : ndef_rec_const_payload msgAll = pb := by
    unfold ndef_rec_const_payload
    rw [hhdr, htlen, hilen, hplen, hpbtail, ← hpl, List.take_left]
  have hreclen : ndef_rec_len msgAll = ndefRecHdrLen f + tl + il + pl := by
    unfold ndef_rec_len
    rw [hhdr, htlen, hilen, hplen]
  have hresttail : msgAll.drop (ndefRecHdrLen f + tl + il + pl) = rest := by
    rw [← List.drop_drop, hpbtail, ← hpl, List.drop_left]
  have hhdr2 : 2 ≤ ndefRecHdrLen f := by
    unfold ndefRecHdrLen
    omega
  rw [reportLoop_eq]
  rw [if_neg (by push_cast; omega)]
  rw [if_neg (by unfold NDEF_REC_SIZEOF; push_cast; omega)]
  simp only [hTNFeq, htyR, hidR, hpbR, hreclen, hresttail]
  have hsub : ((ndefRecHdrLen f + tl + il + pl + r' : Nat) : Int) -
      ((ndefRecHdrLen f + tl + il + pl : Nat) : Int) = (r' : Int) := by
    push_cast
    ring
  rw [hsub, hrest]

/-- Reporter correctness over a successfully built message: one entry per
record, in order, carrying exactly the decoded field bytes. -/
lemma build_aux_report {recs : List nfc_ndef_record_param} {i0 n off len : Nat}
    {msg : List Byte}
    (h : build_ndef_msg_aux recs i0 n off len = some msg)
    (hv : ∀ r ∈ recs,
        r.flags &&& NDEF_FLAG_BITS = r.flags ∧ r.tnf < NDEF_NUMBER_OF_TNFS)
    (hbound : ∀ r ∈ recs,
        ((b64DecodeCore r.type).getD []).length ≤ 255 ∧
          ((b64DecodeCore r.id).getD []).length ≤ 255 ∧
          ((b64DecodeCore r.payload).getD []).length < 2 ^ 32) :
    ∀ (rest : List Byte) (r' : Nat) (es : List NdefEntry),
      reportLoop rest (r' : Int) = some es →
      reportLoop (msg ++ rest) ((msg.length + r' : Nat) : Int) =
        some ((recs.map fun r =>
          (⟨r.tnf, (b64DecodeCore r.type).getD [], (b64DecodeCore r.id).getD [],
            (b64DecodeCore r.payload).getD []⟩ : NdefEntry)) ++ es) := by
  induction recs generalizing i0 off msg with
  | nil =>
    intro rest r' es hres
    unfold build_ndef_msg_aux at h
    have hnil : msg = [] := (Option.some_inj.mp h).symm
    subst hnil
    simpa using hres
  | cons r rest0 ih =>
    intro rest r' es hres
    unfold build_ndef_msg_aux at h
    rcases hb : buildRec r i0 n off len with _ | chunk
    · rw [hb] at h
      simp at h
    · rw [hb] at h
      simp only [] at h
      rcases ha : build_ndef_msg_aux rest0 (i0 + 1) n (off + chunk.length) len
        with _ | msgRest
      · rw [ha] at h
        simp at h
      · rw [ha] at h
        simp only [] at h
        have hmsg : chunk ++ msgRest = msg := Option.some_inj.mp h
        obtain ⟨hmaskr, htnfr⟩ := hv r (List.mem_cons_self r rest0)
        obtain ⟨hty255, hid255, hpl32⟩ := hbound r (List.mem_cons_self r rest0)
        obtain ⟨dtype, did, dpayload, hdt, hdi, hdp, hnsr, hchunk⟩ := buildRec_some hb
        rw [hdt] at hty255
        rw [hdp] at hpl32
        simp only [Option.getD_some] at hty255 hpl32
        have hstep := ih ha (fun q hq => hv q (List.mem_cons_of_mem r hq))
          (fun q hq => hbound q (List.mem_cons_of_mem r hq)) rest r' es hres
        have hid255d : did.length ≤ 255 := by
          by_cases hILb : effectiveFlags r i0 n &&& NDEF_FLAG_IL ≠ 0
          · rw [if_pos hILb] at hdi
            rw [hdi] at hid255
            simpa using hid255
          · rw [if_neg hILb] at hdi
            rw [hdi]
            simp
        have hilflag : effectiveFlags r i0 n &&& NDEF_FLAG_IL = 0 → did = [] := by
          intro h0
          rw [if_neg (by simpa using congrArg (· = 0) h0 ▸ (by simp [h0]))] at hdi
          exact hdi
        have hcons := reportLoop_cons (effectiveFlags r i0 n) r.tnf dtype.length
          dpayload.length did.length dtype did dpayload (msgRest ++ rest)
          (msgRest.length + r')
          ((rest0.map fun q =>
            (⟨q.tnf, (b64DecodeCore q.type).getD [], (b64DecodeCore q.id).getD [],
              (b64DecodeCore q.payload).getD []⟩ : NdefEntry)) ++ es)
          (effectiveFlags_lt r i0 n) (effectiveFlags_TNF i0 n hmaskr)
          (by
            have h7 : NDEF_NUMBER_OF_TNFS = 7 := rfl
            omega)
          rfl hty255 rfl hid255d rfl
          (by
            intro hSRb
            by_contra hgt
            exact hnsr ⟨by omega, hSRb⟩)
          (fun _ => hpl32)
          hilflag
          (by
            push_cast
            exact hstep)
        have hlen : msg.length + r' =
            ndefRecHdrLen (effectiveFlags r i0 n) + dtype.length + did.length +
              dpayload.length + (msgRest.length + r') := by
          rw [← hmsg, hchunk]
          simp [ndefHeaderBytes_length]
          omega
        rw [hlen]
        have hlist : msg ++ rest =
            ndefHeaderBytes (effectiveFlags r i0 n) r.tnf dtype.length
                dpayload.length did.length ++
              (dtype ++ (did ++ (dpayload ++ (msgRest ++ rest)))) := by
          rw [← hmsg, hchunk]
          simp [List.append_assoc]
        rw [hlist, hcons]
        have hidentry : (b64DecodeCore r.id).getD [] = did := by
          by_cases hILb : effectiveFlags r i0 n &&& NDEF_FLAG_IL ≠ 0
          · rw [if_pos hILb] at hdi
            rw [hdi]
            rfl
          · have hid0 : r.id.length = 0 := by
              by_contra hne
              exact hILb (effectiveFlags_IL_set i0 n hne)
            rw [if_neg hILb] at hdi
            rw [List.length_eq_zero.mp hid0, b64DecodeCore_nil, hdi]
            rfl
        simp only [List.map_cons, List.cons_append, hdt, hdp, hidentry,
          Option.getD_some]

/-- C2 counterexample record: decoded type of 258 bytes (overflowing the
one-byte type-length field), empty id, one-byte payload. -/
def cexRec : nfc_ndef_record_param :=
  ⟨0, 1, List.replicate 344 'A', [], ['Q', 'Q']⟩

/-- The bytes built from `cexRec`. -/
def cexMsg : List Byte :=
  (build_ndef_msg [cexRec] 4096).getD []

set_option maxRecDepth 100000 in
/-- C2 counterexample: the single-record list `[cexRec]` encodes successfully,
but running the Reporter over the produced bytes does not render one entry
per record with the decoded fields — the decoded 258-byte type overflows the
one-byte type-length field and the walk fails — refuting the claim as stated
for every successfully encoded record list. -/
theorem build_report_roundtrip_cex :
    build_ndef_msg [cexRec] 4096 = some cexMsg ∧
      nfc_recv_process_ndef_cb cexMsg.length cexMsg = none := by
  constructor
  · rfl
  · decide

set_option maxRecDepth 100000 in
/-- C2 amended: for every record list whose records pass the parser's
validation and whose decoded type and id each fit the one-byte length fields
and whose decoded payload fits its length field, the Reporter renders the
built message as exactly one entry per record, in wire order, with the
decoded (pre-base64) type, id and payload bytes. -/
theorem build_report_roundtrip (recs : List nfc_ndef_record_param)
    (len : Nat) (msg : List Byte)
    (hv : ∀ r ∈ recs,
        r.flags &&& NDEF_FLAG_BITS = r.flags ∧ r.tnf < NDEF_NUMBER_OF_TNFS)
    (hbound : ∀ r ∈ recs,
        ((b64DecodeCore r.type).getD []).length ≤ 255 ∧
          ((b64DecodeCore r.id).getD []).length ≤ 255 ∧
          ((b64DecodeCore r.payload).getD []).length < 2 ^ 32)
    (hb : build_ndef_msg recs len = some msg) :
    nfc_recv_process_ndef_cb msg.length msg =
      some (recs.map fun r =>
        (⟨r.tnf, (b64DecodeCore r.type).getD [], (b64DecodeCore r.id).getD [],
          (b64DecodeCore r.payload).getD []⟩ : NdefEntry)) := by
  unfold build_ndef_msg at hb
  have hmain := build_aux_report hb hv hbound [] 0 [] (reportLoop_zero [])
  unfold nfc_recv_process_ndef_cb
  simpa using hmain

/-- C2 amended witness: the round trip at the concrete two-record list. -/
theorem build_report_roundtrip_witness :
    nfc_recv_process_ndef_cb
        ([137, 1, 0, 0, 0, 3, 1, 65, 65, 68, 69, 70, 82, 1, 1, 65, 65] :
          List Byte).length
        [137, 1, 0, 0, 0, 3, 1, 65, 65, 68, 69, 70, 82, 1, 1, 65, 65] =
      some (([⟨0, 1, ['Q', 'Q'], ['Q', 'Q'], ['R', 'E', 'V', 'G']⟩,
          ⟨16, 2, ['Q', 'Q'], [], ['Q', 'Q']⟩] :
        List nfc_ndef_record_param).map fun r =>
          (⟨r.tnf, (b64DecodeCore r.type).getD [], (b64DecodeCore r.id).getD [],
            (b64DecodeCore r.payload).getD []⟩ : NdefEntry)) :=
  build_report_roundtrip
    [⟨0, 1, ['Q', 'Q'], ['Q', 'Q'], ['R', 'E', 'V', 'G']⟩,
     ⟨16, 2, ['Q', 'Q'], [], ['Q', 'Q']⟩] 1024
    [137, 1, 0, 0, 0, 3, 1, 65, 65, 68, 69, 70, 82, 1, 1, 65, 65]
    (by decide) (by decide) (by decide)

/-! ## Claim C7 : interface-activated failure clears endpoint state -/

def devC7 : nfc_device := ⟨[⟨5, 7, 1, 2, false, false⟩], some 0, none, [⟨9, 9⟩]⟩

def paramC7 : nfc_ntf_param := ⟨some 0, 0, -1, 0, 0⟩

/-- C7 counterexample: on the concrete device whose RF table has no
(protocol, mode) match, the interface-activated builder fails (result `-1`,
no RF interface becomes active) — yet the target endpoint's negotiated
link-layer state HAS been mutated (cleared) by the failing command, contrary
to the claim that no shared state is mutated before all validation passed. -/
theorem rf_intf_activated_no_match_clears_re_cex :
    (nfc_rf_intf_activated_ntf_cb hostOk devC7 paramC7).1 = -1 ∧
      (nfc_rf_intf_activated_ntf_cb hostOk devC7 paramC7).2.1.active_rf = none ∧
      ((nfc_rf_intf_activated_ntf_cb hostOk devC7 paramC7).2.1.res.getD 0
          reDefault).llcp_cleared = true ∧
      (devC7.res.getD 0 reDefault).llcp_cleared = false := by
  decide

/-- C7 amended: when RF auto-selection finds no (protocol, mode) match, the
command fails and no RF interface becomes active, but the target endpoint's
negotiated link-layer state has already been cleared — `nfc_clear_re` runs
before the RF-interface resolution. -/
theorem rf_intf_activated_no_match (host : Host) (nfc : nfc_device)
    (param : nfc_ntf_param) (ri : Nat)
    (hre : param.re = some ri)
    (hrf : nfc.active_rf = none)
    (hauto : param.rf = -1)
    (hfind : nfc_find_rf_by_protocol_and_mode nfc
        (nfc.res.getD ri reDefault).rfproto (nfc.res.getD ri reDefault).mode =
      none) :
    nfc_rf_intf_activated_ntf_cb host nfc param =
        (-1,
          { nfc with res := nfc.res.set ri (nfc_clear_re (nfc.res.getD ri reDefault)) },
          [Diag.no_active_rf]) ∧
      ({ nfc with
          res := nfc.res.set ri (nfc_clear_re (nfc.res.getD ri reDefault))} :
        nfc_device).active_rf = none := by
  refine ⟨?_, hrf⟩
  unfold nfc_rf_intf_activated_ntf_cb
  rw [hre]
  simp only []
  set nfc1 : nfc_device :=
    { nfc with res := nfc.res.set ri (nfc_clear_re (nfc.res.getD ri reDefault)) }
    with hnfc1
  have h1 : nfc1.active_rf.isSome = false := by
    rw [show nfc1.active_rf = nfc.active_rf from rfl, hrf]
    rfl
  have h2 : nfc_find_rf_by_protocol_and_mode nfc1
      (nfc.res.getD ri reDefault).rfproto (nfc.res.getD ri reDefault).mode =
      none := hfind
  simp only [hauto, h1, Bool.false_eq_true, if_false, if_pos rfl, h2]
  simp only [if_true]

/-- C7 amended witness: the amended statement at the concrete device. -/
theorem rf_intf_activated_no_match_witness :
    nfc_rf_intf_activated_ntf_cb hostOk devC7 paramC7 =
        (-1,
          { devC7 with
            res := devC7.res.set 0 (nfc_clear_re (devC7.res.getD 0 reDefault)) },
          [Diag.no_active_rf]) ∧
      ({ devC7 with
          res := devC7.res.set 0 (nfc_clear_re (devC7.res.getD 0 reDefault))} :
        nfc_device).active_rf = none :=
  rf_intf_activated_no_match hostOk devC7 paramC7 0 rfl rfl rfl (by decide)

/-! ## Claim C8 : the record parser excludes the derived flag bits -/

lemma parse_token_ul_le {field delims : Str} {args : Option Str} {v : Nat}
    {a' : Option Str} {d : List Diag}
    (h : parse_token_ul field delims args = (some v, a', d)) : v ≤ ULONG_MAX := by
  unfold parse_token_ul at h
  rcases hlex : lex_token field delims args with ⟨o, a2, d2⟩
  rw [hlex] at h
  cases o with
  | none => simp at h
  | some tok =>
    simp only [] at h
    rcases hul : strtoul0 tok with ⟨w, er⟩
    rw [hul] at h
    cases er with
    | true => simp at h
    | false =>
      have hw := strtoul0_le tok
      rw [hul] at hw
      have hv : w = v := by
        have := congrArg (fun x => x.1) h
        simpa using this
      rw [← hv]
      exact hw

lemma parse_ndef_rec_valid {args : Option Str} {rec : nfc_ndef_record_param}
    {args' : Option Str} {d : List Diag}
    (h : parse_ndef_rec args = (some rec, args', d)) :
    rec.flags &&& NDEF_FLAG_BITS = rec.flags ∧ rec.tnf < NDEF_NUMBER_OF_TNFS := by
  unfold parse_ndef_rec at h
  rcases hb : strsep ['['] args with ⟨o0, a1⟩
  rw [hb] at h
  cases o0 with
  | none => simp at h
  | some junk =>
    simp only [] at h
    rcases hf : parse_token_ul fieldNdefFlags [' ', ','] a1 with ⟨of, a2, df⟩
    rw [hf] at h
    cases of with
    | none => simp at h
    | some flags =>
      simp only [] at h
      by_cases hmask : flags &&& (ULONG_MAX ^^^ NDEF_FLAG_BITS) ≠ 0
      · rw [if_pos hmask] at h
        simp at h
      · rw [if_neg hmask] at h
        push_neg at hmask
        rcases ht : parse_token_ul fieldNdefTnf [' ', ','] a2 with ⟨ot, a3, dt⟩
        rw [ht] at h
        cases ot with
        | none => simp at h
        | some tnf =>
          simp only [] at h
          by_cases htnf : ¬(tnf < NDEF_NUMBER_OF_TNFS)
          · rw [if_pos htnf] at h
            simp at h
          · rw [if_neg htnf] at h
            rcases hty : parse_token_s fieldNdefType [' ', ','] a3 false with ⟨oty, a4, dty⟩
            rw [hty] at h
            cases oty with
            | none => simp at h
            | some ty =>
              simp only [] at h
              rcases hid : parse_token_s fieldNdefId [' ', ','] a4 true with ⟨oid, a5, did⟩
              rw [hid] at h
              cases oid with
              | none => simp at h
              | some idt =>
                simp only [] at h
                rcases hpl : parse_token_s fieldNdefPayload [']'] a5 false with ⟨opl, a6, dpl⟩
                rw [hpl] at h
                cases opl with
                | none => simp at h
                | some pl =>
                  simp only [] at h
                  have hrec : (⟨flags, tnf, ty, idt, pl⟩ : nfc_ndef_record_param) = rec := by
                    have := congrArg (fun x => x.1) h
                    simpa using this
                  rw [← hrec]
                  exact ⟨flags_mask_ok (parse_token_ul_le hf) hmask, not_not.mp htnf⟩

lemma parse_ndef_msg_valid {slots : Nat} {args : Option Str}
    {recs : List nfc_ndef_record_param} {args' : Option Str} {d : List Diag}
    (h : parse_ndef_msg slots args = (some (recs, args'), d)) :
    ∀ r ∈ recs, r.flags &&& NDEF_FLAG_BITS = r.flags ∧ r.tnf < NDEF_NUMBER_OF_TNFS := by
  induction slots generalizing args recs args' d with
  | zero =>
    cases args with
    | none =>
      unfold parse_ndef_msg at h
      have hrecs : ([] : List nfc_ndef_record_param) = recs :=
        congrArg Prod.fst (Option.some_inj.mp (congrArg Prod.fst h))
      rw [← hrecs]
      simp
    | some s =>
      unfold parse_ndef_msg at h
      by_cases hne : s ≠ []
      · rw [if_pos hne] at h
        simp at h
      · rw [if_neg hne] at h
        have hrecs : ([] : List nfc_ndef_record_param) = recs :=
          congrArg Prod.fst (Option.some_inj.mp (congrArg Prod.fst h))
        rw [← hrecs]
        simp
  | succ k ih =>
    cases args with
    | none =>
      unfold parse_ndef_msg at h
      have hrecs : ([] : List nfc_ndef_record_param) = recs :=
        congrArg Prod.fst (Option.some_inj.mp (congrArg Prod.fst h))
      rw [← hrecs]
      simp
    | some s =>
      cases s with
      | nil =>
        unfold parse_ndef_msg at h
        have hrecs : ([] : List nfc_ndef_record_param) = recs :=
          congrArg Prod.fst (Option.some_inj.mp (congrArg Prod.fst h))
        rw [← hrecs]
        simp
      | cons c cs =>
        unfold parse_ndef_msg at h
        rcases hr : parse_ndef_rec (some (c :: cs)) with ⟨orec, a1, d1⟩
        rw [hr] at h
        cases orec with
        | none => simp at h
        | some r0 =>
          simp only [] at h
          rcases hm : parse_ndef_msg k a1 with ⟨om, d2⟩
          rw [hm] at h
          cases om with
          | none => simp at h
          | some pr =>
            rcases pr with ⟨rs, a2⟩
            simp only [] at h
            have hcons : r0 :: rs = recs :=
              congrArg Prod.fst (Option.some_inj.mp (congrArg Prod.fst h))
            rw [← hcons]
            intro r hmem
            rcases List.mem_cons.mp hmem with hEq | hmem2
            · subst hEq
              exact parse_ndef_rec_valid hr
            · exact ih hm r hmem2

/-- C8: the NDEF record parser rejects, through the reserved-bits mask, any
record whose flags contain a bit outside the caller-permitted mask
`NDEF_FLAG_BITS`; consequently every parsed record — and hence every record
list a dispatcher hands to `build_ndef_msg` — has caller flags that exclude
the derived bits `MB`, `ME` and `IL`, so OR-ing the derived bits onto the
caller flags cannot be preempted. -/
theorem parse_rejects_derived_flag_bits :
    (∀ args rec args' d, parse_ndef_rec args = (some rec, args', d) →
        rec.flags &&& NDEF_FLAG_BITS = rec.flags ∧
          rec.flags &&& (NDEF_FLAG_MB ||| NDEF_FLAG_ME ||| NDEF_FLAG_IL) = 0) ∧
    (∀ slots args recs args' d,
        parse_ndef_msg slots args = (some (recs, args'), d) →
          ∀ r ∈ recs, r.flags &&& NDEF_FLAG_BITS = r.flags ∧
            r.flags &&& (NDEF_FLAG_MB ||| NDEF_FLAG_ME ||| NDEF_FLAG_IL) = 0) := by
  constructor
  · intro args rec args' d h
    have hv := (parse_ndef_rec_valid h).1
    exact ⟨hv, (submask_bits hv).2.2.2.2.2⟩
  · intro slots args recs args' d h r hmem
    have hv := (parse_ndef_msg_valid h r hmem).1
    exact ⟨hv, (submask_bits hv).2.2.2.2.2⟩

/-- C8 witness: the concrete record literal `[48,1,QQ,,QQ]` (flags `CF|SR`)
parses and its flags exclude the derived bits. -/
theorem parse_rejects_derived_flag_bits_witness :
    (⟨48, 1, ['Q', 'Q'], [], ['Q', 'Q']⟩ : nfc_ndef_record_param).flags &&&
        NDEF_FLAG_BITS =
        (⟨48, 1, ['Q', 'Q'], [], ['Q', 'Q']⟩ : nfc_ndef_record_param).flags ∧
      (⟨48, 1, ['Q', 'Q'], [], ['Q', 'Q']⟩ : nfc_ndef_record_param).flags &&&
          (NDEF_FLAG_MB ||| NDEF_FLAG_ME ||| NDEF_FLAG_IL) = 0 :=
  parse_rejects_derived_flag_bits.1
    (some ['[', '4', '8', ',', '1', ',', 'Q', 'Q', ',', ',', 'Q', 'Q', ']'])
    ⟨48, 1, ['Q', 'Q'], [], ['Q', 'Q']⟩ (some []) [] (by decide)

/-! ## Claim C4 : SAP parsing range -/

lemma sap_ok_iff (sap : Int) (auto : Bool) :
    sap_ok sap auto = true ↔
      (-1 ≤ sap ∧ sap < LLCP_NUMBER_OF_SAPS ∧ (sap = -1 → auto = true)) := by
  unfold sap_ok LLCP_NUMBER_OF_SAPS
  cases auto
  · simp
    omega
  · simp

/-- C4: `parse_sap` accepts exactly the integers in `[-1, LLCP_NUMBER_OF_SAPS)`:
the acceptance test `sap_ok` holds iff the value is at least `-1` and below the
SAP bound with `-1` permitted only for auto-detectable fields, and every value
that `parse_sap` returns successfully lies in that range. -/
theorem parse_sap_accepts_exactly :
    (∀ (sap : Int) (auto : Bool),
        sap_ok sap auto = true ↔
          (-1 ≤ sap ∧ sap < LLCP_NUMBER_OF_SAPS ∧ (sap = -1 → auto = true))) ∧
    (∀ field args auto v args' d,
        parse_sap field args auto = (some v, args', d) →
          -1 ≤ v ∧ v < LLCP_NUMBER_OF_SAPS ∧ (v = -1 → auto = true)) := by
  refine ⟨sap_ok_iff, ?_⟩
  intro field args auto v args' d h
  unfold parse_sap at h
  rcases hpt : parse_token_l field [' '] args with ⟨o, a2, d2⟩
  rw [hpt] at h
  cases o with
  | none => simp at h
  | some w =>
    by_cases hok : sap_ok w auto = true
    · simp only [hok, if_true] at h
      have hv : w = v := by
        have := congrArg Prod.fst h
        simpa using this
      subst hv
      exact (sap_ok_iff w auto).mp hok
    · simp only [hok, if_false] at h
      simp at h

/-- C4 witness: a concrete successful parse of the SAP token `5` lies in the
accepted range. -/
theorem parse_sap_accepts_exactly_witness :
    -1 ≤ (5 : Int) ∧ (5 : Int) < LLCP_NUMBER_OF_SAPS ∧ ((5 : Int) = -1 → true = true) :=
  parse_sap_accepts_exactly.2 fieldDSAP (some ['5']) true 5 none [] (by decide)

/-! ## Claim C10 : unknown `tag` operation returns success silently -/

/-- C10: when the first token of the `tag` command line is none of `set`,
`clear`, `format`, the dispatcher returns success (0) with no dispatched
operation and no diagnostic (in particular no invalid-operation report),
unlike the `snep` dispatcher which fails on an unrecognised operation. -/
theorem nfc_cmd_tag_unknown_op (host : Host) (nfc : nfc_device) (s : Str)
    (h1 : (strsep [' '] (some s)).1 ≠ some kwSet)
    (h2 : (strsep [' '] (some s)).1 ≠ some kwClear)
    (h3 : (strsep [' '] (some s)).1 ≠ some kwFormat) :
    nfc_cmd_tag host nfc (some s) = (0, [], []) := by
  obtain ⟨t, a1, hs⟩ := strsep_some [' '] s
  rw [hs] at h1 h2 h3
  simp only [ne_eq, Option.some_inj] at h1 h2 h3
  simp only [nfc_cmd_tag, hs, if_neg h1, if_neg h2, if_neg h3]

/-- C10 witness: the concrete line `bogus 1` yields success with no events and
no diagnostics. -/
theorem nfc_cmd_tag_unknown_op_witness :
    nfc_cmd_tag hostOk ⟨[reDefault], none, none, []⟩
      (some ['b', 'o', 'g', 'u', 's', ' ', '1']) = (0, [], []) :=
  nfc_cmd_tag_unknown_op hostOk ⟨[reDefault], none, none, []⟩
    ['b', 'o', 'g', 'u', 's', ' ', '1'] (by decide) (by decide) (by decide)

/-! ## Claim C5 : `snep put` dispatches exactly one operation -/

/-- C5: for every successfully parsed `snep put` command line, `nfc_cmd_snep`
dispatches exactly one operation — the receive dispatch (`recv_dta` with
`nfc_recv_snep_put_cb`) when zero record literals were parsed, the send
dispatch (`send_dta` with `nfc_send_snep_put_cb`) when at least one was. -/
theorem nfc_cmd_snep_put_dispatch (host : Host) (s : Str) (args1 : Option Str)
    (dsap ssap : Int) (a2 a3 a4 : Option Str) (d1 d2 d3 : List Diag)
    (recs : List nfc_ndef_record_param)
    (hp : strsep [' '] (some s) = (some kwPut, args1))
    (hd : parse_sap fieldDSAP args1 true = (some dsap, a2, d1))
    (hs2 : parse_sap fieldSSAP a2 true = (some ssap, a3, d2))
    (hm : parse_ndef_msg 4 a3 = (some (recs, a4), d3)) :
    nfc_cmd_snep host (some s) =
      ((if (if recs.length ≠ 0 then host.send_dta else host.recv_dta) < 0
          then -1 else 0),
        [if recs.length ≠ 0 then Event.send_dta_snep_put
         else Event.recv_dta_snep_put],
        d1 ++ d2 ++ d3) := by
  simp only [nfc_cmd_snep, hp, if_pos rfl, hd, hs2, hm]
  cases recs with
  | nil => by_cases hrd : host.recv_dta < 0 <;> simp [hrd]
  | cons r0 rest => by_cases hsd : host.send_dta < 0 <;> simp [hsd]

/-- C5 witness: the concrete line `put 0 4` parses with zero records and
dispatches exactly the receive operation. -/
theorem nfc_cmd_snep_put_dispatch_witness :
    nfc_cmd_snep hostOk (some ['p', 'u', 't', ' ', '0', ' ', '4']) =
      ((if (if ([] : List nfc_ndef_record_param).length ≠ 0 then hostOk.send_dta
            else hostOk.recv_dta) < 0 then -1 else 0),
        [if ([] : List nfc_ndef_record_param).length ≠ 0 then Event.send_dta_snep_put
         else Event.recv_dta_snep_put],
        [] ++ [] ++ []) :=
  nfc_cmd_snep_put_dispatch hostOk ['p', 'u', 't', ' ', '0', ' ', '4']
    (some ['0', ' ', '4']) 0 4 (some ['4']) none none [] [] [] []
    (by decide) (by decide) (by decide) (by decide)

/-! ## Claim C6 : zero SAPs rejected by the LLCP connect callback -/

/-- C6: in `nfc_llcp_connect_cb`, after SAP auto-resolution from the active
remote endpoint, a resolved DSAP of 0 or a resolved SSAP of 0 — supplied
explicitly or produced by resolution — fails the operation with no LLCP
connect sent; only when both resolved SAPs are non-zero is the connect
handed to the host. -/
theorem nfc_llcp_connect_cb_zero_sap (host : Host) (nfc : nfc_device)
    (param : nfc_llcp_param) (ri : Nat) (h : nfc.active_re = some ri) :
    (let re := nfc.res.getD ri reDefault
     let p : nfc_llcp_param :=
       if param.dsap < 0 ∧ param.ssap < 0 then
         { param with dsap := re.last_dsap, ssap := re.last_ssap }
       else param
     (p.dsap = 0 →
        nfc_llcp_connect_cb host nfc param = (-1, p, [], [Diag.dsap_zero])) ∧
     (p.dsap ≠ 0 → p.ssap = 0 →
        nfc_llcp_connect_cb host nfc param = (-1, p, [], [Diag.ssap_zero])) ∧
     (p.dsap ≠ 0 → p.ssap ≠ 0 →
        (nfc_llcp_connect_cb host nfc param).2.2.1 =
          [Event.re_send_llcp_connect ri p.dsap p.ssap])) := by
  simp only [nfc_llcp_connect_cb, h]
  set re := nfc.res.getD ri reDefault with hre
  set p : nfc_llcp_param :=
    if param.dsap < 0 ∧ param.ssap < 0 then
      { param with dsap := re.last_dsap, ssap := re.last_ssap }
    else param with hpdef
  refine ⟨?_, ?_, ?_⟩
  · intro h0
    rw [if_pos h0]
  · intro h0 h1
    rw [if_neg h0, if_pos h1]
  · intro h0 h1
    rw [if_neg h0, if_neg h1]
    split <;> rfl

/-- C6 witness: with an active endpoint whose last SAPs are `4`/`5` and the
auto-detect values `-1`/`-1`, the connect is sent with the resolved SAPs. -/
theorem nfc_llcp_connect_cb_zero_sap_witness :
    (nfc_llcp_connect_cb hostOk
        ⟨[⟨4, 5, 0, 0, false, false⟩], some 0, none, []⟩ ⟨-1, -1⟩).2.2.1 =
      [Event.re_send_llcp_connect 0 4 5] :=
  ((nfc_llcp_connect_cb_zero_sap hostOk
      ⟨[⟨4, 5, 0, 0, false, false⟩], some 0, none, []⟩ ⟨-1, -1⟩ 0 rfl).2.2
    (by decide) (by decide))

/-! ## Claim C9 : SNEP put SAP auto-resolution and no-endpoint failure -/

/-- C9: both SNEP put paths fail with an error when no remote endpoint is
active, and when both SAPs are `-1` they are replaced by the active
endpoint's last negotiated DSAP/SSAP immediately before the put is handed to
the host. -/
theorem snep_put_sap_resolution :
    (∀ host nfc param, nfc.active_re = none →
        nfc_send_snep_put_cb host nfc param = (-1, param, [], [Diag.no_active_re]) ∧
        nfc_recv_snep_put_cb host nfc param = (-1, param, [], [Diag.no_active_re])) ∧
    (∀ host nfc param (ri : Nat), nfc.active_re = some ri →
        param.dsap = -1 → param.ssap = -1 →
        (nfc_send_snep_put_cb host nfc param).2.2.1 =
          [Event.re_send_snep_put ri (nfc.res.getD ri reDefault).last_dsap
            (nfc.res.getD ri reDefault).last_ssap] ∧
        (nfc_recv_snep_put_cb host nfc param).2.2.1 =
          [Event.re_recv_snep_put ri (nfc.res.getD ri reDefault).last_dsap
            (nfc.res.getD ri reDefault).last_ssap]) := by
  constructor
  · intro host nfc param h
    unfold nfc_send_snep_put_cb nfc_recv_snep_put_cb
    rw [h]
    exact ⟨rfl, rfl⟩
  · intro host nfc param ri h hd hs
    unfold nfc_send_snep_put_cb nfc_recv_snep_put_cb
    rw [h]
    have hneg : param.dsap < 0 ∧ param.ssap < 0 := by omega
    simp only [if_pos hneg]
    constructor <;> split <;> rfl

/-- C9 witness: with last negotiated SAPs `9`/`17` and the `-1`/`-1` request,
the send path's put is requested with the resolved SAPs. -/
theorem snep_put_sap_resolution_witness :
    (nfc_send_snep_put_cb hostOk
        ⟨[⟨9, 17, 0, 0, false, false⟩], some 0, none, []⟩ ⟨-1, -1, 0, []⟩).2.2.1 =
      [Event.re_send_snep_put 0 9 17] :=
  (snep_put_sap_resolution.2 hostOk
      ⟨[⟨9, 17, 0, 0, false, false⟩], some 0, none, []⟩ ⟨-1, -1, 0, []⟩ 0
      rfl rfl rfl).1

end NfcEmu
